import Mathlib

/-!
Verification development for the tile-binning immediate-mode UI renderer
(class UIRenderer).  The definitions below are a shallow embedding of the
renderer's TypeScript source: JS numbers are modelled as rationals, the
Float32Array command buffer as a total function with bounds-guarded writes,
Uint16Array buffers as total functions with bounds-guarded writes that
store values modulo 2^16, and the JS `>>` operator via explicit ToInt32
conversion followed by floor division.  The embedding follows the full
variant of the renderer (the one with addRect / addQuad / addImage and
standalone texture samplers); the trimmed variant in src/shading.ts shares
the identical core (writeCmdToTiles, pushStyleIfNew, addPrimitiveShape,
beginFrame, draw).
-/

set_option allowUnsafeReducibility true

set_option maxRecDepth 40000

attribute [local semireducible] Rat.add Rat.sub Rat.mul Rat.inv Rat.ofScientific

/-- MAX_CMD_BUFFER_LINE = 512. -/
def MAX_CMD_BUFFER_LINE : ℕ := 512

/-- MAX_CMD_DATA = MAX_CMD_BUFFER_LINE * MAX_CMD_BUFFER_LINE. -/
def MAX_CMD_DATA : ℕ := MAX_CMD_BUFFER_LINE * MAX_CMD_BUFFER_LINE

/-- MAX_STYLE_CMDS = MAX_CMD_BUFFER_LINE. -/
def MAX_STYLE_CMDS : ℕ := MAX_CMD_BUFFER_LINE

/-- MAX_SHAPE_CMDS = MAX_CMD_DATA - MAX_STYLE_CMDS. -/
def MAX_SHAPE_CMDS : ℕ := MAX_CMD_DATA - MAX_STYLE_CMDS

/-- TILE_SIZE = 5 (tile side: 32 pixels = 5 bits). -/
def TILE_SIZE : ℕ := 5

/-- MAX_TILES = 4 * 1024 - 1. -/
def MAX_TILES : ℕ := 4 * 1024 - 1

/-- MAX_CMDS_PER_TILE = 64. -/
def MAX_CMDS_PER_TILE : ℕ := 64

/-- TILE_CMDS_BUFFER_LINE = 256. -/
def TILE_CMDS_BUFFER_LINE : ℕ := 256

/-- styleDataStartIdx = (MAX_CMD_DATA - MAX_STYLE_CMDS) * 4: style records are
written to the last command-data texture line. -/
def styleDataStartIdx : ℕ := (MAX_CMD_DATA - MAX_STYLE_CMDS) * 4

/-- styleStep = 2 * 4: number of floats a single style needs. -/
def styleStep : ℕ := 2 * 4

/-- Command type enum values (const enum CMD). -/
def CMD_LINE : ℚ := 1

/-- CMD.QUAD. -/
def CMD_QUAD : ℚ := 2

/-- CMD.RECT. -/
def CMD_RECT : ℚ := 3

/-- CMD.FRAME. -/
def CMD_FRAME : ℚ := 4

/-- CMD.ORI_RECT. -/
def CMD_ORI_RECT : ℚ := 5

/-- CMD.IMAGE. -/
def CMD_IMAGE : ℚ := 6

/-- An RGBA color (a JS array [r,g,b,a] of 4 numbers, the vec4 shorthand). -/
structure Vec4 where
  r : ℚ
  g : ℚ
  b : ℚ
  a : ℚ

deriving instance DecidableEq for Vec4

/-- Representation of a rectangle for geometry operations (class Rect). -/
structure Rect where
  left : ℚ
  right : ℚ
  top : ℚ
  bottom : ℚ
  width : ℚ
  height : ℚ

deriving instance DecidableEq for Rect

/-- The Rect constructor: left=x, right=x+w, top=y+h, bottom=y. -/
def mkRect (x y w h : ℚ) : Rect :=
  { left := x, right := x + w, top := y + h, bottom := y, width := w, height := h }

/-- Rect.intersects of the source (boolean-valued). -/
def Rect.intersects (r other : Rect) : Bool :=
  decide (r.left ≤ other.right) && decide (other.left ≤ r.right) &&
  decide (r.bottom ≤ other.top) && decide (other.bottom ≤ r.top)

/-- Rect.widen: grow the rectangle by val on each side. -/
def Rect.widen (r : Rect) (val : ℚ) : Rect :=
  let l := r.left - val
  let b := r.bottom - val
  let w := r.width + val * 2
  let h := r.height + val * 2
  { left := l, right := l + w, top := b + h, bottom := b, width := w, height := h }

/-- Rect.encapsulate: grow the rectangle to contain the given point. -/
def Rect.encapsulate (r : Rect) (p : ℚ × ℚ) : Rect :=
  let l := min r.left p.1
  let rr := max r.right p.1
  let b := min r.bottom p.2
  let t := max r.top p.2
  { left := l, right := rr, top := t, bottom := b, width := rr - l, height := t - b }

/-- Write into the Float32Array cmdData (length MAX_CMD_DATA * 4): an
out-of-bounds indexed store on a JS typed array is silently dropped. -/
def f32Write (d : ℕ → ℚ) (i : ℕ) (v : ℚ) : ℕ → ℚ :=
  if i < MAX_CMD_DATA * 4 then fun j => if j = i then v else d j else d

/-- Write into a Uint16Array of the given length: out-of-bounds stores are
dropped and stored values are coerced modulo 2^16. -/
def u16Write (len : ℕ) (d : ℕ → ℕ) (i : ℕ) (v : ℕ) : ℕ → ℕ :=
  if i < len then fun j => if j = i then v % 65536 else d j else d

/-- Truncation toward zero of a JS number, the first step of ToInt32. -/
def ratTrunc (q : ℚ) : ℤ := if 0 ≤ q then ⌊q⌋ else ⌈q⌉

/-- ToInt32 of an integer: reduce modulo 2^32 into [-2^31, 2^31). -/
def toInt32 (n : ℤ) : ℤ := Int.emod (n + 2 ^ 31) (2 ^ 32) - 2 ^ 31

/-- The JS expression (q >> 5) = (q >> TILE_SIZE): ToInt32 then arithmetic
shift right by 5, which is floor division by 32 on the int32 value. -/
def jsShr5 (q : ℚ) : ℤ := Int.fdiv (toInt32 (ratTrunc q)) 32

/-- JS Math.round: floor(q + 1/2) (ties round toward positive infinity). -/
def jsRound (q : ℚ) : ℚ := ((⌊q + 1 / 2⌋ : ℤ) : ℚ)

/-- The mutable fields of the UIRenderer instance that the accumulation and
draw phases read or write. -/
structure RState where
  viewportW : ℚ
  viewportH : ℚ
  cmdData : ℕ → ℚ
  cmdDataIdx : ℕ
  num_tiles_x : ℤ
  num_tiles_y : ℤ
  num_tiles_n : ℤ
  cmdsPerTile : ℕ → ℕ → ℕ
  tileCmds : ℕ → ℕ
  tileCmdRanges : ℕ → ℕ
  styleDataIdx : ℕ
  stateColor : Vec4
  stateLineWidth : ℚ
  stateCorner : ℚ
  stateChanges : ℕ
  textureIDs : List ℕ
  textureBundleIDs : List ℕ
  loadingTextureIDs : List ℕ

/-- The renderer's field initializers: viewport 1x1, one tile, zeroed
buffers, style cursor at styleDataStartIdx, state color sentinel
(-1,-1,-1,-1), line width 1, corner 0, empty texture lists. -/
def initState : RState :=
  { viewportW := 1, viewportH := 1
    cmdData := fun _ => 0, cmdDataIdx := 0
    num_tiles_x := 1, num_tiles_y := 1, num_tiles_n := 1
    cmdsPerTile := fun _ _ => 0, tileCmds := fun _ => 0, tileCmdRanges := fun _ => 0
    styleDataIdx := styleDataStartIdx
    stateColor := ⟨-1, -1, -1, -1⟩, stateLineWidth := 1, stateCorner := 0
    stateChanges := 0
    textureIDs := [], textureBundleIDs := [], loadingTextureIDs := [] }

/-- The inclusive integer range [lo, hi] as a list (empty when hi < lo),
modelling an ascending for loop. -/
def intRange (lo hi : ℤ) : List ℤ :=
  List.map (fun k : ℕ => lo + (k : ℤ)) (List.range (hi + 1 - lo).toNat)

/-- The sequence of tile indices y * num_tiles_x + x visited by the nested
binning loops of writeCmdToTiles: y outer ascending, x inner ascending. -/
def tileSeq (nx ty0 ty1 tx0 tx1 : ℤ) : List ℤ :=
  (intRange ty0 ty1).flatMap (fun y => (intRange tx0 tx1).map (fun x => y * nx + x))

/-- One tile-list append of writeCmdToTiles: num_tile_cmds = ++arr[0], then
arr[num_tile_cmds] = v (both stores with Uint16Array semantics, capacity
MAX_CMDS_PER_TILE). -/
def tileAppend (arr : ℕ → ℕ) (v : ℕ) : ℕ → ℕ :=
  u16Write MAX_CMDS_PER_TILE (u16Write MAX_CMDS_PER_TILE arr 0 (arr 0 + 1)) (arr 0 + 1) v

/-- Append the command index v to the list of tile t. -/
def binTile (st : RState) (t : ℕ) (v : ℕ) : RState :=
  { st with cmdsPerTile := fun u => if u = t then tileAppend (st.cmdsPerTile t) v else st.cmdsPerTile u }

/-- The nested binning loops: append the command index v to every tile in
the visit sequence. -/
def binFold (L : List ℤ) (v : ℕ) (st : RState) : RState :=
  L.foldl (fun a t => binTile a t.toNat v) st

/-- writeCmdToTiles: capacity check (at least 4 free 4-float records), then
bin the command index into every overlapped tile, then write the header and
bounds texels at the write cursor and advance it by 8 floats. -/
def writeCmdToTiles (s : RState) (cmdType : ℚ) (bounds : Rect) : RState × Bool :=
  let w := s.cmdDataIdx
  if (w : ℚ) / 4 + 4 > (MAX_SHAPE_CMDS : ℚ) then (s, false) else
  let ty0 := max (jsShr5 bounds.bottom) 0
  let tx0 := max (jsShr5 bounds.left) 0
  let tx1 := min (jsShr5 bounds.right) (s.num_tiles_x - 1)
  let ty1 := min (jsShr5 bounds.top) (s.num_tiles_y - 1)
  let s1 := binFold (tileSeq s.num_tiles_x ty0 ty1 tx0 tx1) (w / 4) s
  let d1 := f32Write s1.cmdData w cmdType
  let d2 := f32Write d1 (w + 1) (((s.styleDataIdx : ℚ) - (styleDataStartIdx : ℚ) - (styleStep : ℚ)) / 4)
  let d3 := f32Write d2 (w + 4) bounds.left
  let d4 := f32Write d3 (w + 5) bounds.bottom
  let d5 := f32Write d4 (w + 6) bounds.right
  let d6 := f32Write d5 (w + 7) bounds.top
  ({ s1 with cmdData := d6, cmdDataIdx := w + 8 }, true)

/-- The style-change condition of pushStyleIfNew: the color differs
component-wise, or the line width is used for this shape and differs, or
the corner is used and differs. -/
def styleNew (s : RState) (color : Vec4) (lineWidth corner : Option ℚ) : Bool :=
  (if s.stateColor = color then false else true) ||
  (match lineWidth with
   | none => false
   | some lw => if s.stateLineWidth = lw then false else true) ||
  (match corner with
   | none => false
   | some c => if s.stateCorner = c then false else true)

/-- pushStyleIfNew: when the style differs from the active one, update the
active-style cache, then (with wrap-to-start on style-capacity overflow)
write the 8-float style record and advance the style cursor. -/
def pushStyleIfNew (s : RState) (color : Vec4) (lineWidth corner : Option ℚ) : RState :=
  if styleNew s color lineWidth corner then
    let newLW := lineWidth.getD 1
    let newCorner := corner.getD 0
    let sw0 := s.styleDataIdx
    let sw := if ((sw0 : ℚ) - (styleDataStartIdx : ℚ)) / 4 + 2 > (MAX_STYLE_CMDS : ℚ)
              then styleDataStartIdx else sw0
    let d1 := f32Write s.cmdData sw newLW
    let d2 := f32Write d1 (sw + 1) newCorner
    let d3 := f32Write d2 (sw + 4) color.r
    let d4 := f32Write d3 (sw + 5) color.g
    let d5 := f32Write d4 (sw + 6) color.b
    let d6 := f32Write d5 (sw + 7) color.a
    { s with stateColor := color, stateLineWidth := newLW, stateCorner := newCorner,
             stateChanges := s.stateChanges + 1, cmdData := d6, styleDataIdx := sw + 8 }
  else s

/-- addPrimitiveShape: clip against the viewport, then push the style if
changed, then write the command and bin it into tiles. -/
def addPrimitiveShape (s : RState) (cmdType : ℚ) (bounds : Rect) (color : Vec4)
    (lineWidth corner : ℚ) : RState × Bool :=
  if bounds.right < 0 ∨ bounds.left > s.viewportW ∨ bounds.top < 0 ∨ bounds.bottom > s.viewportH
  then (s, false)
  else writeCmdToTiles (pushStyleIfNew s color (some lineWidth) (some corner)) cmdType bounds

/-- addRect (the y argument of the Rect constructor is the bottom). -/
def addRect (s : RState) (left top width height : ℚ) (color : Vec4) (cornerWidth : ℚ) : RState :=
  (addPrimitiveShape s CMD_RECT (mkRect left top width height) color 0 cornerWidth).1

/-- addFrame. -/
def addFrame (s : RState) (left bottom width height lineWidth : ℚ) (color : Vec4)
    (cornerWidth : ℚ) : RState :=
  (addPrimitiveShape s CMD_FRAME (mkRect left bottom width height) color lineWidth cornerWidth).1

/-- addLine: bounds from the two endpoints widened by round(width*0.5+0.01);
on success append the two endpoints as shape parameters (4 floats). -/
def addLine (s : RState) (p1 p2 : ℚ × ℚ) (width : ℚ) (color : Vec4) : RState :=
  let bounds := ((mkRect p1.1 p1.2 0 0).encapsulate p2).widen (jsRound (width * (1 / 2) + 1 / 100))
  let pr := addPrimitiveShape s CMD_LINE bounds color width 0
  if pr.2 then
    let s1 := pr.1
    let w := s1.cmdDataIdx
    let d := f32Write (f32Write (f32Write (f32Write s1.cmdData w p1.1) (w + 1) p1.2)
      (w + 2) p2.1) (w + 3) p2.2
    { s1 with cmdData := d, cmdDataIdx := w + 4 }
  else pr.1

/-- addQuad: bounds encapsulating the four corners; on success append the
four corners as shape parameters (8 floats). -/
def addQuad (s : RState) (p1 p2 p3 p4 : ℚ × ℚ) (color : Vec4) : RState :=
  let bounds := (((mkRect p1.1 p1.2 0 0).encapsulate p2).encapsulate p3).encapsulate p4
  let pr := addPrimitiveShape s CMD_QUAD bounds color 0 0
  if pr.2 then
    let s1 := pr.1
    let w := s1.cmdDataIdx
    let d := f32Write (f32Write (f32Write (f32Write (f32Write (f32Write (f32Write (f32Write
      s1.cmdData w p1.1) (w + 1) p1.2) (w + 2) p2.1) (w + 3) p2.2)
      (w + 4) p3.1) (w + 5) p3.2) (w + 6) p4.1) (w + 7) p4.2
    { s1 with cmdData := d, cmdDataIdx := w + 8 }
  else pr.1

/-- addImageInternal: image command with color (1,1,1,alpha); on success
append samplerIdx and slice, then skip 2 floats (4 floats total). -/
def addImageInternal (s : RState) (left top width height samplerIdx slice cornerWidth alpha : ℚ) :
    RState :=
  let bounds := mkRect left top width height
  let pr := addPrimitiveShape s CMD_IMAGE bounds ⟨1, 1, 1, alpha⟩ 0 cornerWidth
  if pr.2 then
    let s1 := pr.1
    let w := s1.cmdDataIdx
    let d := f32Write (f32Write s1.cmdData w samplerIdx) (w + 1) slice
    { s1 with cmdData := d, cmdDataIdx := w + 4 }
  else pr.1

/-- Number of standalone sampler uniforms created by the constructor
(sampler0 .. sampler4). -/
def samplersLength : ℕ := 5

/-- pushTextureID: -2 for an invalid (falsy) texture, the existing index if
already requested this frame, -1 if the texture is still loading, else
append to the bind list and return the new index. -/
def pushTextureID (loading : List ℕ) (textureID : Option ℕ) (texturesToDraw : List ℕ) :
    ℤ × List ℕ :=
  match textureID with
  | none => (-2, texturesToDraw)
  | some t =>
    if t ∈ texturesToDraw then ((texturesToDraw.indexOf t : ℤ), texturesToDraw)
    else if t ∈ loading then (-1, texturesToDraw)
    else ((texturesToDraw.length : ℤ), texturesToDraw ++ [t])

/-- addImage: request the texture, compute the sampler index (standalone
images start at samplerID 5; negative request indexes are kept; if the bind
list length reaches the sampler count, fall back to -2), then add the image
command. -/
def addImage (s : RState) (left top width height : ℚ) (textureID : Option ℕ)
    (cornerWidth alpha : ℚ) : RState :=
  let pr := pushTextureID s.loadingTextureIDs textureID s.textureIDs
  let s1 := { s with textureIDs := pr.2 }
  let samplerIdx : ℤ :=
    if pr.1 < 0 then pr.1
    else if (pr.2.length : ℤ) ≥ (samplersLength : ℤ) then -2
    else 5 + pr.1
  addImageInternal s1 left top width height (samplerIdx : ℚ) 0 cornerWidth alpha

/-- beginFrame: cache the viewport and tile grid for the frame, clear the
used prefix of tileCmdRanges, and allocate a fresh zeroed command list for
every used tile. -/
def beginFrame (s : RState) (canvasW canvasH : ℕ) : RState :=
  let nx := jsShr5 (canvasW : ℚ) + 1
  let ny := jsShr5 (canvasH : ℚ) + 1
  let n := nx * ny
  { s with viewportW := (canvasW : ℚ), viewportH := (canvasH : ℚ),
           num_tiles_x := nx, num_tiles_y := ny, num_tiles_n := n,
           tileCmdRanges := fun i => if (i : ℤ) < n + 1 ∧ i < MAX_TILES + 1 then 0
                                     else s.tileCmdRanges i,
           cmdsPerTile := fun t => if (t : ℤ) < n then fun _ => 0 else s.cmdsPerTile t }

/-- The inner packing loop of draw for one tile: append the tile's command
indices (entries 1..count of its unpacked list) to the packed tileCmds
array, advancing the packed write index. -/
def packInner (arr : ℕ → ℕ) (tc : ℕ → ℕ) (idx : ℕ) : (ℕ → ℕ) × ℕ :=
  (List.range (arr 0)).foldl
    (fun ac i => (u16Write (TILE_CMDS_BUFFER_LINE * TILE_CMDS_BUFFER_LINE) ac.1 ac.2 (arr (i + 1)),
      ac.2 + 1))
    (tc, idx)

/-- The packing loop of draw: for each tile in row-major index order record
the current packed index in tileCmdRanges, then append the tile's command
list to tileCmds. -/
def packLoop (cpt : ℕ → ℕ → ℕ) (n : ℕ) (tc rg : ℕ → ℕ) : (ℕ → ℕ) × (ℕ → ℕ) × ℕ :=
  (List.range n).foldl
    (fun acc ti =>
      let rg2 := u16Write (MAX_TILES + 1) acc.2.1 ti acc.2.2
      let inner := packInner (cpt ti) acc.1 acc.2.2
      (inner.1, rg2, inner.2))
    (tc, rg, 0)

/-- draw: pack the per-tile command lists (CSR layout, final sentinel offset
after the last tile), then clear the draw list, the texture bind lists, the
state color and the style cursor.  The GPU upload and draw call have no
effect on the modelled state. -/
def draw (s : RState) : RState :=
  let n := s.num_tiles_n.toNat
  let p := packLoop s.cmdsPerTile n s.tileCmds s.tileCmdRanges
  let rg := u16Write (MAX_TILES + 1) p.2.1 n p.2.2
  { s with tileCmds := p.1, tileCmdRanges := rg,
           cmdDataIdx := 0, textureIDs := [], textureBundleIDs := [],
           stateColor := ⟨-1, -1, -1, -1⟩,
           styleDataIdx := styleDataStartIdx, stateChanges := 0 }

/-! Basic pointwise lemmas about the array-write helpers. -/

theorem f32Write_apply (d : ℕ → ℚ) (i : ℕ) (v : ℚ) (j : ℕ) :
    f32Write d i v j = if j = i ∧ i < MAX_CMD_DATA * 4 then v else d j := by
  unfold f32Write
  by_cases hlen : i < MAX_CMD_DATA * 4
  · rw [if_pos hlen]
    by_cases hj : j = i
    · simp [hj, hlen]
    · simp [hj]
  · rw [if_neg hlen]
    have hb : ¬(j = i ∧ i < MAX_CMD_DATA * 4) := by tauto
    rw [if_neg hb]

theorem f32Write_ne (d : ℕ → ℚ) (i : ℕ) (v : ℚ) (j : ℕ) (h : j ≠ i) :
    f32Write d i v j = d j := by
  rw [f32Write_apply, if_neg]
  rintro ⟨h1, _⟩
  exact h h1

theorem u16Write_apply (len : ℕ) (d : ℕ → ℕ) (i v j : ℕ) :
    u16Write len d i v j = if j = i ∧ i < len then v % 65536 else d j := by
  unfold u16Write
  by_cases hlen : i < len
  · rw [if_pos hlen]
    by_cases hj : j = i
    · simp [hj, hlen]
    · simp [hj]
  · rw [if_neg hlen]
    have hb : ¬(j = i ∧ i < len) := by tauto
    rw [if_neg hb]

/-! Frame lemmas: the binning fold only modifies the per-tile lists, and
pushStyleIfNew only modifies the style-related fields. -/

theorem binFold_eq (L : List ℤ) (v : ℕ) (st : RState) :
    binFold L v st = { st with cmdsPerTile := (binFold L v st).cmdsPerTile } := by
  induction L generalizing st with
  | nil => rfl
  | cons t L ih =>
    show binFold L v (binTile st t.toNat v) = _
    rw [ih]
    rfl

theorem writeCmd_fst (s : RState) (cmdType : ℚ) (bounds : Rect) :
    (writeCmdToTiles s cmdType bounds).1 =
      { s with cmdData := (writeCmdToTiles s cmdType bounds).1.cmdData,
               cmdDataIdx := (writeCmdToTiles s cmdType bounds).1.cmdDataIdx,
               cmdsPerTile := (writeCmdToTiles s cmdType bounds).1.cmdsPerTile } := by
  simp only [writeCmdToTiles]
  split
  · rfl
  · dsimp only
    rw [binFold_eq]

theorem pushStyle_eq (s : RState) (color : Vec4) (lw corner : Option ℚ) :
    pushStyleIfNew s color lw corner =
      { s with cmdData := (pushStyleIfNew s color lw corner).cmdData,
               styleDataIdx := (pushStyleIfNew s color lw corner).styleDataIdx,
               stateColor := (pushStyleIfNew s color lw corner).stateColor,
               stateLineWidth := (pushStyleIfNew s color lw corner).stateLineWidth,
               stateCorner := (pushStyleIfNew s color lw corner).stateCorner,
               stateChanges := (pushStyleIfNew s color lw corner).stateChanges } := by
  simp only [pushStyleIfNew]
  split
  · rfl
  · rfl

/-- The style write index after the wrap-on-overflow check. -/
def styleWriteIdx (s : RState) : ℕ :=
  if ((s.styleDataIdx : ℚ) - (styleDataStartIdx : ℚ)) / 4 + 2 > (MAX_STYLE_CMDS : ℚ)
  then styleDataStartIdx else s.styleDataIdx

theorem styleWriteIdx_ge (s : RState) (hstyle : styleDataStartIdx ≤ s.styleDataIdx) :
    styleDataStartIdx ≤ styleWriteIdx s := by
  unfold styleWriteIdx
  split
  · exact le_refl _
  · exact hstyle

theorem styleWriteIdx_le (s : RState) :
    styleWriteIdx s ≤ styleDataStartIdx + 2040 := by
  unfold styleWriteIdx
  split
  · omega
  · next h =>
    push_neg at h
    have h4 : (s.styleDataIdx : ℚ) ≤ (styleDataStartIdx : ℚ) + 2040 := by
      have := h
      unfold MAX_STYLE_CMDS MAX_CMD_BUFFER_LINE at this
      push_cast at this
      linarith
    exact_mod_cast h4

/-- When the style is pushed, pushStyleIfNew updates the cache fields and
advances the style cursor to styleWriteIdx + 8, writing the record there. -/
theorem pushStyle_pushed (s : RState) (color : Vec4) (lw corner : Option ℚ)
    (h : styleNew s color lw corner = true) :
    pushStyleIfNew s color lw corner =
      { s with
        stateColor := color, stateLineWidth := lw.getD 1, stateCorner := corner.getD 0,
        stateChanges := s.stateChanges + 1,
        cmdData := f32Write (f32Write (f32Write (f32Write (f32Write (f32Write s.cmdData
          (styleWriteIdx s) (lw.getD 1)) (styleWriteIdx s + 1) (corner.getD 0))
          (styleWriteIdx s + 4) color.r) (styleWriteIdx s + 5) color.g)
          (styleWriteIdx s + 6) color.b) (styleWriteIdx s + 7) color.a,
        styleDataIdx := styleWriteIdx s + 8 } := by
  simp only [pushStyleIfNew, h, if_true, styleWriteIdx]

theorem pushStyle_not_pushed (s : RState) (color : Vec4) (lw corner : Option ℚ)
    (h : styleNew s color lw corner = false) :
    pushStyleIfNew s color lw corner = s := by
  simp [pushStyleIfNew, h]

theorem pushStyle_cmdData_low (s : RState) (color : Vec4) (lw corner : Option ℚ)
    (hstyle : styleDataStartIdx ≤ s.styleDataIdx) (i : ℕ) (hi : i < styleDataStartIdx) :
    (pushStyleIfNew s color lw corner).cmdData i = s.cmdData i := by
  by_cases h : styleNew s color lw corner = true
  · rw [pushStyle_pushed s color lw corner h]
    have hsw : styleDataStartIdx ≤ styleWriteIdx s := styleWriteIdx_ge s hstyle
    dsimp only
    rw [f32Write_ne _ _ _ _ (by omega), f32Write_ne _ _ _ _ (by omega),
        f32Write_ne _ _ _ _ (by omega), f32Write_ne _ _ _ _ (by omega),
        f32Write_ne _ _ _ _ (by omega), f32Write_ne _ _ _ _ (by omega)]
  · rw [pushStyle_not_pushed s color lw corner (by simpa using h)]

/-- The viewport-clip test of addPrimitiveShape fails exactly when the
bounds rectangle does not intersect the viewport rectangle. -/
theorem clip_iff_not_intersects (s : RState) (b : Rect) :
    (b.right < 0 ∨ b.left > s.viewportW ∨ b.top < 0 ∨ b.bottom > s.viewportH) ↔
      b.intersects (mkRect 0 0 s.viewportW s.viewportH) = false := by
  simp only [Rect.intersects, mkRect, Bool.and_eq_false_iff, decide_eq_false_iff_not, not_le,
    zero_add]
  constructor
  · rintro (h | h | h | h) <;> tauto
  · rintro (((h | h) | h) | h) <;> tauto

/-- C6: a shape whose bounding box lies fully outside the viewport
rectangle [0, viewportWidth] x [0, viewportHeight] is discarded: no command
is written, the state (command cursor and style buffer included) is
unchanged, and the call reports the shape as not added (returns false). -/
theorem C6_clip_discards (s : RState) (cmdType : ℚ) (b : Rect) (color : Vec4)
    (lineWidth corner : ℚ)
    (hout : b.intersects (mkRect 0 0 s.viewportW s.viewportH) = false) :
    addPrimitiveShape s cmdType b color lineWidth corner = (s, false) := by
  unfold addPrimitiveShape
  rw [if_pos ((clip_iff_not_intersects s b).mpr hout)]

/-- Witness for C6 at a concrete input: a rectangle entirely left of and
below the viewport is rejected with the state untouched. -/
theorem C6_clip_discards_witness :
    addPrimitiveShape (beginFrame initState 100 100) CMD_RECT (mkRect (-20) (-20) 5 5)
      ⟨1, 0, 0, 1⟩ 0 0 = (beginFrame initState 100 100, false) :=
  C6_clip_discards (beginFrame initState 100 100) CMD_RECT (mkRect (-20) (-20) 5 5)
    ⟨1, 0, 0, 1⟩ 0 0 (by decide)

/-- C8: an in-view shape arriving when fewer than 4 free 4-float records
remain (cursor/4 + 4 exceeds MAX_SHAPE_CMDS) is dropped: the call returns
false, no part of the command is written (the command region of cmdData,
the command cursor, the per-tile lists and the packed tile buffer are all
unchanged), and no buffer grows — the state stays within the same fixed
arrays.  The capacity warning is a console log with no state effect. -/
theorem C8_capacity_drop (s : RState) (cmdType : ℚ) (b : Rect) (color : Vec4)
    (lineWidth corner : ℚ)
    (hview : b.intersects (mkRect 0 0 s.viewportW s.viewportH) = true)
    (hcap : (s.cmdDataIdx : ℚ) / 4 + 4 > (MAX_SHAPE_CMDS : ℚ))
    (hstyle : styleDataStartIdx ≤ s.styleDataIdx) :
    (addPrimitiveShape s cmdType b color lineWidth corner).2 = false ∧
    (addPrimitiveShape s cmdType b color lineWidth corner).1.cmdDataIdx = s.cmdDataIdx ∧
    (addPrimitiveShape s cmdType b color lineWidth corner).1.cmdsPerTile = s.cmdsPerTile ∧
    (addPrimitiveShape s cmdType b color lineWidth corner).1.tileCmds = s.tileCmds ∧
    ∀ i < styleDataStartIdx,
      (addPrimitiveShape s cmdType b color lineWidth corner).1.cmdData i = s.cmdData i := by
  have hclip : ¬(b.right < 0 ∨ b.left > s.viewportW ∨ b.top < 0 ∨ b.bottom > s.viewportH) := by
    rw [clip_iff_not_intersects s b, hview]
    simp
  have hidx : (pushStyleIfNew s color (some lineWidth) (some corner)).cmdDataIdx =
      s.cmdDataIdx := by
    rw [pushStyle_eq s color (some lineWidth) (some corner)]
  simp only [addPrimitiveShape, if_neg hclip, writeCmdToTiles]
  rw [if_pos (by rw [hidx]; exact hcap)]
  refine ⟨rfl, hidx, ?_, ?_, ?_⟩
  · rw [pushStyle_eq s color (some lineWidth) (some corner)]
  · rw [pushStyle_eq s color (some lineWidth) (some corner)]
  · intro i hi
    exact pushStyle_cmdData_low s color (some lineWidth) (some corner) hstyle i hi

/-- writeCmdToTiles does not touch the style cursor, the active-style cache,
the state-change counter or the viewport. -/
theorem writeCmd_keeps (s : RState) (cmdType : ℚ) (bounds : Rect) :
    (writeCmdToTiles s cmdType bounds).1.stateColor = s.stateColor ∧
    (writeCmdToTiles s cmdType bounds).1.stateLineWidth = s.stateLineWidth ∧
    (writeCmdToTiles s cmdType bounds).1.stateCorner = s.stateCorner ∧
    (writeCmdToTiles s cmdType bounds).1.stateChanges = s.stateChanges ∧
    (writeCmdToTiles s cmdType bounds).1.styleDataIdx = s.styleDataIdx ∧
    (writeCmdToTiles s cmdType bounds).1.viewportW = s.viewportW ∧
    (writeCmdToTiles s cmdType bounds).1.viewportH = s.viewportH :=
  ⟨by rw [writeCmd_fst s cmdType bounds], by rw [writeCmd_fst s cmdType bounds],
   by rw [writeCmd_fst s cmdType bounds], by rw [writeCmd_fst s cmdType bounds],
   by rw [writeCmd_fst s cmdType bounds], by rw [writeCmd_fst s cmdType bounds],
   by rw [writeCmd_fst s cmdType bounds]⟩

/-- A renderer state whose command buffer is too full to accept a shape:
the write cursor is at 1046516 floats, style cursor at its start. -/
def fullState : RState :=
  { initState with viewportW := 100, viewportH := 100, cmdDataIdx := 1046516 }

/-- Witness for C8 at a concrete input. -/
theorem C8_capacity_drop_witness :
    (addPrimitiveShape fullState CMD_RECT (mkRect 10 10 20 20) ⟨1, 0, 0, 1⟩ 0 0).2 = false ∧
    (addPrimitiveShape fullState CMD_RECT (mkRect 10 10 20 20) ⟨1, 0, 0, 1⟩ 0 0).1.cmdDataIdx =
      fullState.cmdDataIdx ∧
    (addPrimitiveShape fullState CMD_RECT (mkRect 10 10 20 20) ⟨1, 0, 0, 1⟩ 0 0).1.cmdData 0 =
      fullState.cmdData 0 := by
  have h := C8_capacity_drop fullState CMD_RECT (mkRect 10 10 20 20) ⟨1, 0, 0, 1⟩ 0 0
    (by decide) (by decide) (by decide)
  exact ⟨h.1, h.2.1, h.2.2.2.2 0 (by decide)⟩

/-- The boolean style-change test holds exactly when the requested color
differs component-wise from the active one, or a used line width differs,
or a used corner radius differs. -/
theorem styleNew_iff (s : RState) (c : Vec4) (lw cr : Option ℚ) :
    styleNew s c lw cr = true ↔
      (s.stateColor ≠ c ∨ (∃ x, lw = some x ∧ s.stateLineWidth ≠ x) ∨
        (∃ x, cr = some x ∧ s.stateCorner ≠ x)) := by
  cases lw with
  | none =>
    cases cr with
    | none =>
      by_cases h1 : s.stateColor = c <;> simp [styleNew, h1]
    | some y =>
      by_cases h1 : s.stateColor = c <;> by_cases h3 : s.stateCorner = y <;>
        simp [styleNew, h1, h3]
  | some x =>
    cases cr with
    | none =>
      by_cases h1 : s.stateColor = c <;> by_cases h2 : s.stateLineWidth = x <;>
        simp [styleNew, h1, h2]
    | some y =>
      by_cases h1 : s.stateColor = c <;> by_cases h2 : s.stateLineWidth = x <;>
        by_cases h3 : s.stateCorner = y <;> simp [styleNew, h1, h2, h3]

theorem styleNew_eq_false (s : RState) (c : Vec4) (x y : ℚ) (h1 : s.stateColor = c)
    (h2 : s.stateLineWidth = x) (h3 : s.stateCorner = y) :
    styleNew s c (some x) (some y) = false := by
  simp [styleNew, h1, h2, h3]

/-- After pushStyleIfNew with both line width and corner supplied, the
active-style cache holds exactly the requested style (whether or not a
record was pushed). -/
theorem pushStyle_state (s : RState) (c : Vec4) (x y : ℚ) :
    (pushStyleIfNew s c (some x) (some y)).stateColor = c ∧
    (pushStyleIfNew s c (some x) (some y)).stateLineWidth = x ∧
    (pushStyleIfNew s c (some x) (some y)).stateCorner = y := by
  by_cases h : styleNew s c (some x) (some y) = true
  · rw [pushStyle_pushed s c (some x) (some y) h]
    exact ⟨rfl, rfl, rfl⟩
  · rw [pushStyle_not_pushed s c (some x) (some y) (by simpa using h)]
    have h2 := h
    unfold styleNew at h2
    by_cases e1 : s.stateColor = c <;> by_cases e2 : s.stateLineWidth = x <;>
      by_cases e3 : s.stateCorner = y <;> simp [e1, e2, e3] at h2 ⊢

/-- C10: an add call that passes the viewport clip but is dropped by the
command-capacity check is not atomic — the style push runs first, so when
the requested color differs from the active style the call appends a style
record (the style cursor moves) and updates the whole active-style cache,
even though it returns false and writes no command. -/
theorem C10_nonatomic_style_push (s : RState) (cmdType : ℚ) (b : Rect) (color : Vec4)
    (lineWidth corner : ℚ)
    (hview : b.intersects (mkRect 0 0 s.viewportW s.viewportH) = true)
    (hcap : (s.cmdDataIdx : ℚ) / 4 + 4 > (MAX_SHAPE_CMDS : ℚ))
    (hnew : s.stateColor ≠ color) :
    (addPrimitiveShape s cmdType b color lineWidth corner).2 = false ∧
    (addPrimitiveShape s cmdType b color lineWidth corner).1.cmdDataIdx = s.cmdDataIdx ∧
    (addPrimitiveShape s cmdType b color lineWidth corner).1.stateColor = color ∧
    (addPrimitiveShape s cmdType b color lineWidth corner).1.stateLineWidth = lineWidth ∧
    (addPrimitiveShape s cmdType b color lineWidth corner).1.stateCorner = corner ∧
    (addPrimitiveShape s cmdType b color lineWidth corner).1.stateChanges = s.stateChanges + 1 ∧
    (addPrimitiveShape s cmdType b color lineWidth corner).1.styleDataIdx ≠ s.styleDataIdx := by
  have hclip : ¬(b.right < 0 ∨ b.left > s.viewportW ∨ b.top < 0 ∨ b.bottom > s.viewportH) := by
    rw [clip_iff_not_intersects s b, hview]
    simp
  have hsn : styleNew s color (some lineWidth) (some corner) = true := by
    unfold styleNew
    rw [if_neg hnew]
    simp
  have hidx : (pushStyleIfNew s color (some lineWidth) (some corner)).cmdDataIdx =
      s.cmdDataIdx := by
    rw [pushStyle_eq s color (some lineWidth) (some corner)]
  have hp := pushStyle_pushed s color (some lineWidth) (some corner) hsn
  simp only [addPrimitiveShape, if_neg hclip, writeCmdToTiles]
  rw [if_pos (by rw [hidx]; exact hcap)]
  rw [hp]
  refine ⟨rfl, by rw [← hp]; exact hidx, rfl, rfl, rfl, rfl, ?_⟩
  dsimp only
  unfold styleWriteIdx
  split
  · next hwrap =>
    have hbig : (styleDataStartIdx : ℚ) + 2040 < (s.styleDataIdx : ℚ) := by
      unfold MAX_STYLE_CMDS MAX_CMD_BUFFER_LINE at hwrap
      push_cast at hwrap
      linarith
    have hb2 : styleDataStartIdx + 2040 < s.styleDataIdx := by exact_mod_cast hbig
    omega
  · omega

/-- The in-view unfolding of addRect. -/
theorem addRect_in_view (s : RState) (l t w h : ℚ) (c : Vec4) (cw : ℚ)
    (hclip : ¬((mkRect l t w h).right < 0 ∨ (mkRect l t w h).left > s.viewportW ∨
      (mkRect l t w h).top < 0 ∨ (mkRect l t w h).bottom > s.viewportH)) :
    addRect s l t w h c cw =
      (writeCmdToTiles (pushStyleIfNew s c (some 0) (some cw)) CMD_RECT (mkRect l t w h)).1 := by
  unfold addRect addPrimitiveShape
  rw [if_neg hclip]

/-- The clipped unfolding of addRect. -/
theorem addRect_clipped (s : RState) (l t w h : ℚ) (c : Vec4) (cw : ℚ)
    (hclip : (mkRect l t w h).right < 0 ∨ (mkRect l t w h).left > s.viewportW ∨
      (mkRect l t w h).top < 0 ∨ (mkRect l t w h).bottom > s.viewportH) :
    addRect s l t w h c cw = s := by
  unfold addRect addPrimitiveShape
  rw [if_pos hclip]

/-- Color A of the style scenario. -/
def colA : Vec4 := ⟨1, 0, 0, 1⟩

/-- Color B of the style scenario. -/
def colB : Vec4 := ⟨0, 1, 0, 1⟩

/-- A frame begun on a 100 x 100 canvas. -/
def s100 : RState := beginFrame initState 100 100

/-- The state after adding five rectangles with colors A, A, B, A, A. -/
def aabaa : RState :=
  addRect (addRect (addRect (addRect (addRect s100 0 0 10 10 colA 0)
    0 0 10 10 colA 0) 0 0 10 10 colB 0) 0 0 10 10 colA 0) 0 0 10 10 colA 0

/-- C7: a style record is appended iff the requested color differs
component-wise from the active style, or a used line width or corner
differs; consecutive addRect calls with identical color/lineWidth/corner
never push a second record; and the concrete A,A,B,A,A rectangle sequence
pushes exactly 3 style records, in order A, B, A. -/
theorem C7_style_dedup :
    (∀ (s : RState) (c : Vec4) (lw cr : Option ℚ),
      ((pushStyleIfNew s c lw cr).stateChanges = s.stateChanges + 1 ↔
        (s.stateColor ≠ c ∨ (∃ x, lw = some x ∧ s.stateLineWidth ≠ x) ∨
          (∃ x, cr = some x ∧ s.stateCorner ≠ x))) ∧
      (¬(s.stateColor ≠ c ∨ (∃ x, lw = some x ∧ s.stateLineWidth ≠ x) ∨
          (∃ x, cr = some x ∧ s.stateCorner ≠ x)) →
        pushStyleIfNew s c lw cr = s)) ∧
    (∀ (s : RState) (l t w h : ℚ) (c : Vec4) (cw : ℚ),
      (addRect (addRect s l t w h c cw) l t w h c cw).stateChanges =
        (addRect s l t w h c cw).stateChanges ∧
      (addRect (addRect s l t w h c cw) l t w h c cw).styleDataIdx =
        (addRect s l t w h c cw).styleDataIdx) ∧
    (aabaa.stateChanges = 3 ∧ aabaa.styleDataIdx = styleDataStartIdx + 24 ∧
      aabaa.cmdData (styleDataStartIdx + 4) = 1 ∧
      aabaa.cmdData (styleDataStartIdx + 5) = 0 ∧
      aabaa.cmdData (styleDataStartIdx + 12) = 0 ∧
      aabaa.cmdData (styleDataStartIdx + 13) = 1 ∧
      aabaa.cmdData (styleDataStartIdx + 20) = 1 ∧
      aabaa.cmdData (styleDataStartIdx + 21) = 0) := by
  refine ⟨?_, ?_, ?_⟩
  · intro s c lw cr
    constructor
    · constructor
      · intro hch
        by_cases h : styleNew s c lw cr = true
        · exact (styleNew_iff s c lw cr).mp h
        · rw [pushStyle_not_pushed s c lw cr (by simpa using h)] at hch
          omega
      · intro hcond
        rw [pushStyle_pushed s c lw cr ((styleNew_iff s c lw cr).mpr hcond)]
    · intro hcond
      refine pushStyle_not_pushed s c lw cr ?_
      have h := (styleNew_iff s c lw cr).not.mpr hcond
      simpa using h
  · intro s l t w h c cw
    by_cases hclip : (mkRect l t w h).right < 0 ∨ (mkRect l t w h).left > s.viewportW ∨
        (mkRect l t w h).top < 0 ∨ (mkRect l t w h).bottom > s.viewportH
    · have h1 := addRect_clipped s l t w h c cw hclip
      exact ⟨by rw [h1, h1], by rw [h1, h1]⟩
    · have e1 := addRect_in_view s l t w h c cw hclip
      have hpush := pushStyle_state s c 0 cw
      have hkeep := writeCmd_keeps (pushStyleIfNew s c (some 0) (some cw)) CMD_RECT
        (mkRect l t w h)
      have hcol : (addRect s l t w h c cw).stateColor = c := by
        rw [e1, hkeep.1]
        exact hpush.1
      have hlw : (addRect s l t w h c cw).stateLineWidth = 0 := by
        rw [e1, hkeep.2.1]
        exact hpush.2.1
      have hcr : (addRect s l t w h c cw).stateCorner = cw := by
        rw [e1, hkeep.2.2.1]
        exact hpush.2.2
      have hvw : (addRect s l t w h c cw).viewportW = s.viewportW := by
        rw [e1, hkeep.2.2.2.2.2.1]
        rw [pushStyle_eq s c (some 0) (some cw)]
      have hvh : (addRect s l t w h c cw).viewportH = s.viewportH := by
        rw [e1, hkeep.2.2.2.2.2.2]
        rw [pushStyle_eq s c (some 0) (some cw)]
      have hclip1 : ¬((mkRect l t w h).right < 0 ∨
          (mkRect l t w h).left > (addRect s l t w h c cw).viewportW ∨
          (mkRect l t w h).top < 0 ∨
          (mkRect l t w h).bottom > (addRect s l t w h c cw).viewportH) := by
        rw [hvw, hvh]
        exact hclip
      have e2 := addRect_in_view (addRect s l t w h c cw) l t w h c cw hclip1
      have hnopush : pushStyleIfNew (addRect s l t w h c cw) c (some 0) (some cw) =
          addRect s l t w h c cw :=
        pushStyle_not_pushed _ _ _ _
          (styleNew_eq_false (addRect s l t w h c cw) c 0 cw hcol hlw hcr)
      have hkeep2 := writeCmd_keeps (addRect s l t w h c cw) CMD_RECT (mkRect l t w h)
      constructor
      · rw [e2, hnopush]
        exact hkeep2.2.2.2.1
      · rw [e2, hnopush]
        exact hkeep2.2.2.2.2.1
  · exact ⟨by decide, by decide, by decide, by decide, by decide, by decide, by decide, by decide⟩

/-- Witness for C7: with the active style already equal to the request,
pushStyleIfNew is a no-op. -/
theorem C7_style_dedup_witness :
    pushStyleIfNew initState ⟨-1, -1, -1, -1⟩ none none = initState :=
  (C7_style_dedup.1 initState ⟨-1, -1, -1, -1⟩ none none).2 (by simp [initState])

/-- A frame begun on a 1000 x 1000 canvas. -/
def sImg : RState := beginFrame initState 1000 1000

/-- Six addImage calls with six distinct, valid, fully loaded textures in
one frame. -/
def imgChain : RState :=
  addImage (addImage (addImage (addImage (addImage (addImage sImg
    0 0 10 10 (some 1) 0 1)
    0 0 10 10 (some 2) 0 1)
    0 0 10 10 (some 3) 0 1)
    0 0 10 10 (some 4) 0 1)
    0 0 10 10 (some 5) 0 1)
    0 0 10 10 (some 6) 0 1

/-- C2 evaluation: with 5 standalone sampler slots, the six image commands
carry sampler indices 5, 6, 7, 8, -2, -2 — the capacity check compares the
bind-list length after the push with >=, so the 5th distinct texture
already falls back to the error index -2, not only the 6th.  All six
textures are nevertheless appended to the bind list. -/
theorem C2_sampler_assignment :
    imgChain.cmdData 8 = 5 ∧ imgChain.cmdData 20 = 6 ∧ imgChain.cmdData 32 = 7 ∧
    imgChain.cmdData 44 = 8 ∧ imgChain.cmdData 56 = -2 ∧ imgChain.cmdData 68 = -2 ∧
    imgChain.textureIDs = [1, 2, 3, 4, 5, 6] := by
  refine ⟨by decide, by decide, by decide, by decide, by decide, by decide, by decide⟩

/-- Frame 1 of the C3 scenario: one addFrame call with line width 5 and the
sentinel color (-1,-1,-1,-1) on a fresh 100 x 100 frame. -/
def c3frame1 : RState := addFrame s100 10 10 20 20 5 ⟨-1, -1, -1, -1⟩ 0

/-- Frame 2 of the C3 scenario: draw, beginFrame, then the identical
addFrame call again. -/
def c3frame2 : RState :=
  addFrame (beginFrame (draw c3frame1) 100 100) 10 10 20 20 5 ⟨-1, -1, -1, -1⟩ 0

/-- Counterexample to C3 as stated: draw() does not reset the line-width
(or corner) component of the active-style cache to its initial value, and
the identical addFrame call in two consecutive frames produces command
records that differ in the style-offset slot (0 in frame 1, -2 in frame
2), because frame 2 pushes no style record for the sentinel color. -/
theorem C3_counterexample :
    (beginFrame (draw c3frame1) 100 100).stateLineWidth = 5 ∧
    initState.stateLineWidth = 1 ∧
    c3frame1.cmdData 1 = 0 ∧ c3frame2.cmdData 1 = -2 ∧
    c3frame1.styleDataIdx = styleDataStartIdx + 8 ∧
    c3frame2.styleDataIdx = styleDataStartIdx := by
  refine ⟨by decide, by decide, by decide, by decide, by decide, by decide⟩

/-- A passed capacity check bounds the write cursor: at most 1046512. -/
theorem capacity_le (w : ℕ) (hcap : ¬((w : ℚ) / 4 + 4 > (MAX_SHAPE_CMDS : ℚ))) :
    w ≤ 1046512 := by
  push_neg at hcap
  have hq : (w : ℚ) ≤ 1046512 := by
    unfold MAX_SHAPE_CMDS MAX_CMD_DATA MAX_STYLE_CMDS MAX_CMD_BUFFER_LINE at hcap
    push_cast at hcap
    linarith
  exact_mod_cast hq

/-- An accepted writeCmdToTiles advances the write cursor by exactly 8
floats (header texel + bounds texel). -/
theorem writeCmd_accepted_idx (s : RState) (cmdType : ℚ) (bounds : Rect)
    (hcap : ¬((s.cmdDataIdx : ℚ) / 4 + 4 > (MAX_SHAPE_CMDS : ℚ))) :
    (writeCmdToTiles s cmdType bounds).1.cmdDataIdx = s.cmdDataIdx + 8 := by
  simp only [writeCmdToTiles]
  rw [if_neg hcap]

/-- An accepted writeCmdToTiles returns true. -/
theorem writeCmd_accepted_snd (s : RState) (cmdType : ℚ) (bounds : Rect)
    (hcap : ¬((s.cmdDataIdx : ℚ) / 4 + 4 > (MAX_SHAPE_CMDS : ℚ))) :
    (writeCmdToTiles s cmdType bounds).2 = true := by
  simp only [writeCmdToTiles]
  rw [if_neg hcap]

/-- The command buffer after an accepted writeCmdToTiles: type at w, style
offset at w+1, bounds (left, bottom, right, top) at w+4..w+7. -/
theorem writeCmd_accepted_cmdData (s : RState) (cmdType : ℚ) (bounds : Rect)
    (hcap : ¬((s.cmdDataIdx : ℚ) / 4 + 4 > (MAX_SHAPE_CMDS : ℚ))) :
    (writeCmdToTiles s cmdType bounds).1.cmdData =
      f32Write (f32Write (f32Write (f32Write (f32Write (f32Write s.cmdData
        s.cmdDataIdx cmdType)
        (s.cmdDataIdx + 1) (((s.styleDataIdx : ℚ) - (styleDataStartIdx : ℚ) -
          (styleStep : ℚ)) / 4))
        (s.cmdDataIdx + 4) bounds.left) (s.cmdDataIdx + 5) bounds.bottom)
        (s.cmdDataIdx + 6) bounds.right) (s.cmdDataIdx + 7) bounds.top := by
  simp only [writeCmdToTiles]
  rw [if_neg hcap]
  dsimp only
  rw [binFold_eq]

/-- An accepted addPrimitiveShape is the composition of the style push and
the command write, with the clip and capacity checks both passing. -/
theorem addPrim_accepted (s : RState) (cmdType : ℚ) (b : Rect) (color : Vec4)
    (lineWidth corner : ℚ)
    (hacc : (addPrimitiveShape s cmdType b color lineWidth corner).2 = true) :
    ¬(b.right < 0 ∨ b.left > s.viewportW ∨ b.top < 0 ∨ b.bottom > s.viewportH) ∧
    ¬((s.cmdDataIdx : ℚ) / 4 + 4 > (MAX_SHAPE_CMDS : ℚ)) ∧
    addPrimitiveShape s cmdType b color lineWidth corner =
      writeCmdToTiles (pushStyleIfNew s color (some lineWidth) (some corner)) cmdType b := by
  by_cases hclip : b.right < 0 ∨ b.left > s.viewportW ∨ b.top < 0 ∨ b.bottom > s.viewportH
  · exfalso
    unfold addPrimitiveShape at hacc
    rw [if_pos hclip] at hacc
    exact Bool.false_ne_true hacc
  · have heq : addPrimitiveShape s cmdType b color lineWidth corner =
        writeCmdToTiles (pushStyleIfNew s color (some lineWidth) (some corner)) cmdType b := by
      unfold addPrimitiveShape
      rw [if_neg hclip]
    refine ⟨hclip, ?_, heq⟩
    intro hcap
    rw [heq] at hacc
    have hidx : (pushStyleIfNew s color (some lineWidth) (some corner)).cmdDataIdx =
        s.cmdDataIdx := by
      rw [pushStyle_eq s color (some lineWidth) (some corner)]
    simp only [writeCmdToTiles] at hacc
    rw [if_pos (by rw [hidx]; exact hcap)] at hacc
    exact Bool.false_ne_true hacc

/-- The counterexample state: one rectangle added to a fresh frame. -/
def c4rect : RState := addRect s100 0 0 10 10 colA 0

/-- Counterexample to C4 as stated: an accepted addRect call advances the
command write cursor by 8 floats, not 16. -/
theorem C4_counterexample :
    (addPrimitiveShape s100 CMD_RECT (mkRect 0 0 10 10) colA 0 0).2 = true ∧
    s100.cmdDataIdx = 0 ∧ c4rect.cmdDataIdx = 8 ∧
    ¬c4rect.cmdDataIdx = s100.cmdDataIdx + 16 := by
  refine ⟨by decide, by decide, by decide, by decide⟩

theorem f32Write_hit (d : ℕ → ℚ) (i : ℕ) (v : ℚ) (h : i < MAX_CMD_DATA * 4) :
    f32Write d i v i = v := by
  rw [f32Write_apply, if_pos ⟨rfl, h⟩]

theorem lt_cmdDataLen (i : ℕ) (h : i ≤ 1048575) : i < MAX_CMD_DATA * 4 := by
  unfold MAX_CMD_DATA MAX_CMD_BUFFER_LINE
  omega

/-- The accepted unfolding of addLine: the four endpoint floats are
appended after the header and bounds, and the cursor advances 4 more. -/
theorem addLine_accepted (s : RState) (p1 p2 : ℚ × ℚ) (wd : ℚ) (c : Vec4)
    (hacc : (addPrimitiveShape s CMD_LINE (((mkRect p1.1 p1.2 0 0).encapsulate p2).widen
      (jsRound (wd * (1 / 2) + 1 / 100))) c wd 0).2 = true) :
    addLine s p1 p2 wd c =
      { (addPrimitiveShape s CMD_LINE (((mkRect p1.1 p1.2 0 0).encapsulate p2).widen
          (jsRound (wd * (1 / 2) + 1 / 100))) c wd 0).1 with
        cmdData := f32Write (f32Write (f32Write (f32Write
          (addPrimitiveShape s CMD_LINE (((mkRect p1.1 p1.2 0 0).encapsulate p2).widen
            (jsRound (wd * (1 / 2) + 1 / 100))) c wd 0).1.cmdData
          (addPrimitiveShape s CMD_LINE (((mkRect p1.1 p1.2 0 0).encapsulate p2).widen
            (jsRound (wd * (1 / 2) + 1 / 100))) c wd 0).1.cmdDataIdx p1.1)
          ((addPrimitiveShape s CMD_LINE (((mkRect p1.1 p1.2 0 0).encapsulate p2).widen
            (jsRound (wd * (1 / 2) + 1 / 100))) c wd 0).1.cmdDataIdx + 1) p1.2)
          ((addPrimitiveShape s CMD_LINE (((mkRect p1.1 p1.2 0 0).encapsulate p2).widen
            (jsRound (wd * (1 / 2) + 1 / 100))) c wd 0).1.cmdDataIdx + 2) p2.1)
          ((addPrimitiveShape s CMD_LINE (((mkRect p1.1 p1.2 0 0).encapsulate p2).widen
            (jsRound (wd * (1 / 2) + 1 / 100))) c wd 0).1.cmdDataIdx + 3) p2.2,
        cmdDataIdx := (addPrimitiveShape s CMD_LINE (((mkRect p1.1 p1.2 0 0).encapsulate
          p2).widen (jsRound (wd * (1 / 2) + 1 / 100))) c wd 0).1.cmdDataIdx + 4 } := by
  simp only [addLine]
  rw [hacc, if_pos rfl]

/-- The accepted unfolding of addQuad (cursor only). -/
theorem addQuad_accepted_idx (s : RState) (p1 p2 p3 p4 : ℚ × ℚ) (c : Vec4)
    (hacc : (addPrimitiveShape s CMD_QUAD
      ((((mkRect p1.1 p1.2 0 0).encapsulate p2).encapsulate p3).encapsulate p4) c 0 0).2 =
      true) :
    (addQuad s p1 p2 p3 p4 c).cmdDataIdx =
      (addPrimitiveShape s CMD_QUAD
        ((((mkRect p1.1 p1.2 0 0).encapsulate p2).encapsulate p3).encapsulate p4)
        c 0 0).1.cmdDataIdx + 8 := by
  simp only [addQuad]
  rw [hacc, if_pos rfl]

/-- C4 amended: every command starts with texel 0 = (type, styleOffset,
unused, unused) and texel 1 = (left, bottom, right, top), but commands are
variable-length: an accepted addRect advances the cursor by exactly 8
floats, addLine by 12 (texel 2 holds the two endpoints), and addQuad by 16
(texels 2 and 3 hold the four corners). -/
theorem C4_amended :
    (∀ (s : RState) (l t w h : ℚ) (c : Vec4) (cw : ℚ),
      (addPrimitiveShape s CMD_RECT (mkRect l t w h) c 0 cw).2 = true →
      (addRect s l t w h c cw).cmdDataIdx = s.cmdDataIdx + 8 ∧
      (addRect s l t w h c cw).cmdData s.cmdDataIdx = CMD_RECT ∧
      (addRect s l t w h c cw).cmdData (s.cmdDataIdx + 1) =
        (((pushStyleIfNew s c (some 0) (some cw)).styleDataIdx : ℚ) -
          (styleDataStartIdx : ℚ) - (styleStep : ℚ)) / 4 ∧
      (addRect s l t w h c cw).cmdData (s.cmdDataIdx + 4) = l ∧
      (addRect s l t w h c cw).cmdData (s.cmdDataIdx + 5) = t ∧
      (addRect s l t w h c cw).cmdData (s.cmdDataIdx + 6) = l + w ∧
      (addRect s l t w h c cw).cmdData (s.cmdDataIdx + 7) = t + h) ∧
    (∀ (s : RState) (p1 p2 : ℚ × ℚ) (wd : ℚ) (c : Vec4),
      (addPrimitiveShape s CMD_LINE (((mkRect p1.1 p1.2 0 0).encapsulate p2).widen
        (jsRound (wd * (1 / 2) + 1 / 100))) c wd 0).2 = true →
      (addLine s p1 p2 wd c).cmdDataIdx = s.cmdDataIdx + 12 ∧
      (addLine s p1 p2 wd c).cmdData (s.cmdDataIdx + 8) = p1.1 ∧
      (addLine s p1 p2 wd c).cmdData (s.cmdDataIdx + 9) = p1.2 ∧
      (addLine s p1 p2 wd c).cmdData (s.cmdDataIdx + 10) = p2.1 ∧
      (addLine s p1 p2 wd c).cmdData (s.cmdDataIdx + 11) = p2.2) ∧
    (∀ (s : RState) (p1 p2 p3 p4 : ℚ × ℚ) (c : Vec4),
      (addPrimitiveShape s CMD_QUAD
        ((((mkRect p1.1 p1.2 0 0).encapsulate p2).encapsulate p3).encapsulate p4) c 0 0).2 =
        true →
      (addQuad s p1 p2 p3 p4 c).cmdDataIdx = s.cmdDataIdx + 16) := by
  refine ⟨?_, ?_, ?_⟩
  · intro s l t w h c cw hacc
    obtain ⟨hclip, hcap, heq⟩ := addPrim_accepted s CMD_RECT (mkRect l t w h) c 0 cw hacc
    have hw := capacity_le s.cmdDataIdx hcap
    have hidx1 : (pushStyleIfNew s c (some 0) (some cw)).cmdDataIdx = s.cmdDataIdx := by
      rw [pushStyle_eq s c (some 0) (some cw)]
    have hcap1 : ¬(((pushStyleIfNew s c (some 0) (some cw)).cmdDataIdx : ℚ) / 4 + 4 >
        (MAX_SHAPE_CMDS : ℚ)) := by
      rw [hidx1]
      exact hcap
    have hd := writeCmd_accepted_cmdData (pushStyleIfNew s c (some 0) (some cw)) CMD_RECT
      (mkRect l t w h) hcap1
    have hi := writeCmd_accepted_idx (pushStyleIfNew s c (some 0) (some cw)) CMD_RECT
      (mkRect l t w h) hcap1
    unfold addRect
    rw [heq, hi, hd, hidx1]
    refine ⟨rfl, ?_, ?_, ?_, ?_, ?_, ?_⟩
    · rw [f32Write_ne _ _ _ _ (by omega), f32Write_ne _ _ _ _ (by omega),
        f32Write_ne _ _ _ _ (by omega), f32Write_ne _ _ _ _ (by omega),
        f32Write_ne _ _ _ _ (by omega), f32Write_hit _ _ _ (lt_cmdDataLen _ (by omega))]
    · rw [f32Write_ne _ _ _ _ (by omega), f32Write_ne _ _ _ _ (by omega),
        f32Write_ne _ _ _ _ (by omega), f32Write_ne _ _ _ _ (by omega),
        f32Write_hit _ _ _ (lt_cmdDataLen _ (by omega))]
    · rw [f32Write_ne _ _ _ _ (by omega), f32Write_ne _ _ _ _ (by omega),
        f32Write_ne _ _ _ _ (by omega), f32Write_hit _ _ _ (lt_cmdDataLen _ (by omega))]
      rfl
    · rw [f32Write_ne _ _ _ _ (by omega), f32Write_ne _ _ _ _ (by omega),
        f32Write_hit _ _ _ (lt_cmdDataLen _ (by omega))]
      rfl
    · rw [f32Write_ne _ _ _ _ (by omega),
        f32Write_hit _ _ _ (lt_cmdDataLen _ (by omega))]
      rfl
    · rw [f32Write_hit _ _ _ (lt_cmdDataLen _ (by omega))]
      rfl
  · intro s p1 p2 wd c hacc
    obtain ⟨hclip, hcap, heq⟩ := addPrim_accepted s CMD_LINE
      (((mkRect p1.1 p1.2 0 0).encapsulate p2).widen (jsRound (wd * (1 / 2) + 1 / 100)))
      c wd 0 hacc
    have hw := capacity_le s.cmdDataIdx hcap
    have hidx1 : (pushStyleIfNew s c (some wd) (some 0)).cmdDataIdx = s.cmdDataIdx := by
      rw [pushStyle_eq s c (some wd) (some 0)]
    have hcap1 : ¬(((pushStyleIfNew s c (some wd) (some 0)).cmdDataIdx : ℚ) / 4 + 4 >
        (MAX_SHAPE_CMDS : ℚ)) := by
      rw [hidx1]
      exact hcap
    have hi := writeCmd_accepted_idx (pushStyleIfNew s c (some wd) (some 0)) CMD_LINE
      (((mkRect p1.1 p1.2 0 0).encapsulate p2).widen (jsRound (wd * (1 / 2) + 1 / 100)))
      hcap1
    have hal := addLine_accepted s p1 p2 wd c hacc
    rw [hal]
    dsimp only
    rw [heq, hi, hidx1]
    refine ⟨rfl, ?_, ?_, ?_, ?_⟩
    · rw [f32Write_ne _ _ _ _ (by omega), f32Write_ne _ _ _ _ (by omega),
        f32Write_ne _ _ _ _ (by omega),
        f32Write_hit _ _ _ (lt_cmdDataLen _ (by omega))]
    · rw [f32Write_ne _ _ _ _ (by omega), f32Write_ne _ _ _ _ (by omega),
        f32Write_hit _ _ _ (lt_cmdDataLen _ (by omega))]
    · rw [f32Write_ne _ _ _ _ (by omega),
        f32Write_hit _ _ _ (lt_cmdDataLen _ (by omega))]
    · rw [f32Write_hit _ _ _ (lt_cmdDataLen _ (by omega))]
  · intro s p1 p2 p3 p4 c hacc
    obtain ⟨hclip, hcap, heq⟩ := addPrim_accepted s CMD_QUAD
      ((((mkRect p1.1 p1.2 0 0).encapsulate p2).encapsulate p3).encapsulate p4) c 0 0 hacc
    have hidx1 : (pushStyleIfNew s c (some 0) (some 0)).cmdDataIdx = s.cmdDataIdx := by
      rw [pushStyle_eq s c (some 0) (some 0)]
    have hcap1 : ¬(((pushStyleIfNew s c (some 0) (some 0)).cmdDataIdx : ℚ) / 4 + 4 >
        (MAX_SHAPE_CMDS : ℚ)) := by
      rw [hidx1]
      exact hcap
    have hi := writeCmd_accepted_idx (pushStyleIfNew s c (some 0) (some 0)) CMD_QUAD
      ((((mkRect p1.1 p1.2 0 0).encapsulate p2).encapsulate p3).encapsulate p4) hcap1
    rw [addQuad_accepted_idx s p1 p2 p3 p4 c hacc, heq, hi, hidx1]

theorem mem_intRange (a lo hi : ℤ) : a ∈ intRange lo hi ↔ lo ≤ a ∧ a ≤ hi := by
  unfold intRange
  simp only [List.mem_map, List.mem_range]
  constructor
  · rintro ⟨k, hk, rfl⟩
    omega
  · rintro ⟨h1, h2⟩
    exact ⟨(a - lo).toNat, by omega, by omega⟩

theorem intRange_nodup (lo hi : ℤ) : (intRange lo hi).Nodup := by
  unfold intRange
  refine List.Nodup.map ?_ (List.nodup_range _)
  intro a b h
  have h2 : lo + (a : ℤ) = lo + (b : ℤ) := h
  omega

theorem mem_tileSeq (t nx ty0 ty1 tx0 tx1 : ℤ) :
    t ∈ tileSeq nx ty0 ty1 tx0 tx1 ↔
      ∃ x y : ℤ, tx0 ≤ x ∧ x ≤ tx1 ∧ ty0 ≤ y ∧ y ≤ ty1 ∧ t = y * nx + x := by
  unfold tileSeq
  simp only [List.mem_flatMap, List.mem_map, mem_intRange]
  constructor
  · rintro ⟨y, ⟨hy1, hy2⟩, x, ⟨hx1, hx2⟩, rfl⟩
    exact ⟨x, y, hx1, hx2, hy1, hy2, rfl⟩
  · rintro ⟨x, y, hx1, hx2, hy1, hy2, rfl⟩
    exact ⟨y, ⟨hy1, hy2⟩, x, ⟨hx1, hx2⟩, rfl⟩

/-- Row-major tile codes y * nx + x are unique over a rectangle of valid
tile coordinates. -/
theorem tile_code_inj (nx x x2 y y2 : ℤ) (hx0 : 0 ≤ x) (hx20 : 0 ≤ x2)
    (hxn : x ≤ nx - 1) (hx2n : x2 ≤ nx - 1) (he : y * nx + x = y2 * nx + x2) :
    y = y2 ∧ x = x2 := by
  have hnx : 1 ≤ nx := by omega
  have h1 : (y - y2) * nx = x2 - x := by linear_combination he
  have hy : y = y2 := by
    by_contra hne
    rcases lt_or_gt_of_ne hne with hlt | hgt
    · have hd : y - y2 ≤ -1 := by omega
      have h2 : (y - y2) * nx ≤ -1 * nx := mul_le_mul_of_nonneg_right hd (by omega)
      rw [h1] at h2
      omega
    · have hd : 1 ≤ y - y2 := by omega
      have h2 : 1 * nx ≤ (y - y2) * nx := mul_le_mul_of_nonneg_right hd (by omega)
      rw [h1] at h2
      omega
  subst hy
  exact ⟨rfl, by omega⟩

theorem tileSeq_nodup (nx ty0 ty1 tx0 tx1 : ℤ) (htx0 : 0 ≤ tx0) (htx1 : tx1 ≤ nx - 1) :
    (tileSeq nx ty0 ty1 tx0 tx1).Nodup := by
  unfold tileSeq
  rw [List.nodup_flatMap]
  constructor
  · intro y _
    refine List.Nodup.map ?_ (intRange_nodup tx0 tx1)
    intro a b h
    exact add_left_cancel h
  · refine List.Pairwise.imp ?_ (intRange_nodup ty0 ty1)
    intro y1 y2 hne
    intro a ha1 ha2
    simp only [List.mem_map, mem_intRange] at ha1 ha2
    obtain ⟨x1, ⟨hx1a, hx1b⟩, he1⟩ := ha1
    obtain ⟨x2, ⟨hx2a, hx2b⟩, he2⟩ := ha2
    exact hne (tile_code_inj nx x1 x2 y1 y2 (by omega) (by omega) (by omega) (by omega)
      (he1.trans he2.symm)).1

theorem binFold_notMem : ∀ (L : List ℤ) (v : ℕ) (st : RState) (u : ℕ),
    u ∉ L.map Int.toNat → (binFold L v st).cmdsPerTile u = st.cmdsPerTile u := by
  intro L v
  induction L with
  | nil => intro st u _; rfl
  | cons t L ih =>
    intro st u hu
    simp only [List.map_cons, List.mem_cons, not_or] at hu
    show (binFold L v (binTile st t.toNat v)).cmdsPerTile u = _
    rw [ih (binTile st t.toNat v) u hu.2]
    simp [binTile, hu.1]

theorem binFold_apply : ∀ (L : List ℤ) (v : ℕ) (st : RState) (u : ℕ),
    (L.map Int.toNat).Nodup →
    (binFold L v st).cmdsPerTile u =
      if u ∈ L.map Int.toNat then tileAppend (st.cmdsPerTile u) v else st.cmdsPerTile u := by
  intro L v
  induction L with
  | nil =>
    intro st u _
    simp [binFold]
  | cons t L ih =>
    intro st u hnd
    simp only [List.map_cons, List.nodup_cons] at hnd
    obtain ⟨ht, hnd2⟩ := hnd
    show (binFold L v (binTile st t.toNat v)).cmdsPerTile u = _
    by_cases he : u = t.toNat
    · subst he
      rw [binFold_notMem L v _ t.toNat ht]
      rw [if_pos (by simp)]
      simp [binTile]
    · rw [ih (binTile st t.toNat v) u hnd2]
      have hb : (binTile st t.toNat v).cmdsPerTile u = st.cmdsPerTile u := by
        simp [binTile, he]
      rw [hb]
      by_cases hm : u ∈ L.map Int.toNat
      · rw [if_pos hm, if_pos (by simp [hm])]
      · rw [if_neg hm, if_neg (by simp [he, hm])]

theorem tileSeq_mem_nonneg (nx ty0 ty1 tx0 tx1 z : ℤ) (htx0 : 0 ≤ tx0) (hty0 : 0 ≤ ty0)
    (htx1 : tx1 ≤ nx - 1) (hz : z ∈ tileSeq nx ty0 ty1 tx0 tx1) : 0 ≤ z := by
  rw [mem_tileSeq] at hz
  obtain ⟨x, y, hx1, hx2, hy1, hy2, rfl⟩ := hz
  have hnx : 0 ≤ nx := by omega
  have hge : 0 ≤ y * nx := mul_nonneg (by omega) hnx
  omega

/-- C1: for an accepted command write, the per-tile command lists that
receive the append are exactly those of the integer rectangle of tiles
x in [max(left shifted right by 5, 0), min(right shifted, num_tiles_x - 1)],
y in [max(bottom shifted, 0), min(top shifted, num_tiles_y - 1)] computed
from the shape's bounding box; every such tile gets exactly one append of
the command record index (cursor / 4), and every other tile list is
untouched. -/
theorem C1_tile_binning (s : RState) (cmdType : ℚ) (b : Rect)
    (hacc : (writeCmdToTiles s cmdType b).2 = true) (t : ℕ) :
    ((∃ x y : ℤ,
        max (jsShr5 b.left) 0 ≤ x ∧ x ≤ min (jsShr5 b.right) (s.num_tiles_x - 1) ∧
        max (jsShr5 b.bottom) 0 ≤ y ∧ y ≤ min (jsShr5 b.top) (s.num_tiles_y - 1) ∧
        (t : ℤ) = y * s.num_tiles_x + x) →
      (writeCmdToTiles s cmdType b).1.cmdsPerTile t =
        tileAppend (s.cmdsPerTile t) (s.cmdDataIdx / 4)) ∧
    ((¬∃ x y : ℤ,
        max (jsShr5 b.left) 0 ≤ x ∧ x ≤ min (jsShr5 b.right) (s.num_tiles_x - 1) ∧
        max (jsShr5 b.bottom) 0 ≤ y ∧ y ≤ min (jsShr5 b.top) (s.num_tiles_y - 1) ∧
        (t : ℤ) = y * s.num_tiles_x + x) →
      (writeCmdToTiles s cmdType b).1.cmdsPerTile t = s.cmdsPerTile t) := by
  have hcap : ¬((s.cmdDataIdx : ℚ) / 4 + 4 > (MAX_SHAPE_CMDS : ℚ)) := by
    intro hc
    simp only [writeCmdToTiles] at hacc
    rw [if_pos hc] at hacc
    exact Bool.false_ne_true hacc
  have hres : (writeCmdToTiles s cmdType b).1.cmdsPerTile =
      (binFold (tileSeq s.num_tiles_x (max (jsShr5 b.bottom) 0)
        (min (jsShr5 b.top) (s.num_tiles_y - 1)) (max (jsShr5 b.left) 0)
        (min (jsShr5 b.right) (s.num_tiles_x - 1))) (s.cmdDataIdx / 4) s).cmdsPerTile := by
    simp only [writeCmdToTiles]
    rw [if_neg hcap]
  have hnonneg : ∀ z ∈ tileSeq s.num_tiles_x (max (jsShr5 b.bottom) 0)
      (min (jsShr5 b.top) (s.num_tiles_y - 1)) (max (jsShr5 b.left) 0)
      (min (jsShr5 b.right) (s.num_tiles_x - 1)), 0 ≤ z := by
    intro z hz
    exact tileSeq_mem_nonneg _ _ _ _ _ _ (le_max_right _ 0) (le_max_right _ 0)
      (min_le_right _ _) hz
  have hnd : ((tileSeq s.num_tiles_x (max (jsShr5 b.bottom) 0)
      (min (jsShr5 b.top) (s.num_tiles_y - 1)) (max (jsShr5 b.left) 0)
      (min (jsShr5 b.right) (s.num_tiles_x - 1))).map Int.toNat).Nodup := by
    refine List.Nodup.map_on ?_
      (tileSeq_nodup _ _ _ _ _ (le_max_right _ 0) (min_le_right _ _))
    intro z1 hz1 z2 hz2 he
    have h1 := hnonneg z1 hz1
    have h2 := hnonneg z2 hz2
    omega
  constructor
  · rintro ⟨x, y, hx1, hx2, hy1, hy2, ht⟩
    have hmem : t ∈ (tileSeq s.num_tiles_x (max (jsShr5 b.bottom) 0)
        (min (jsShr5 b.top) (s.num_tiles_y - 1)) (max (jsShr5 b.left) 0)
        (min (jsShr5 b.right) (s.num_tiles_x - 1))).map Int.toNat := by
      simp only [List.mem_map]
      refine ⟨y * s.num_tiles_x + x, ?_, by omega⟩
      rw [mem_tileSeq]
      exact ⟨x, y, hx1, hx2, hy1, hy2, rfl⟩
    rw [congrFun hres t, binFold_apply _ _ _ _ hnd, if_pos hmem]
  · intro hnot
    have hmem : t ∉ (tileSeq s.num_tiles_x (max (jsShr5 b.bottom) 0)
        (min (jsShr5 b.top) (s.num_tiles_y - 1)) (max (jsShr5 b.left) 0)
        (min (jsShr5 b.right) (s.num_tiles_x - 1))).map Int.toNat := by
      intro hm
      apply hnot
      simp only [List.mem_map] at hm
      obtain ⟨z, hz, hzt⟩ := hm
      have h0 := hnonneg z hz
      rw [mem_tileSeq] at hz
      obtain ⟨x, y, hx1, hx2, hy1, hy2, rfl⟩ := hz
      exact ⟨x, y, hx1, hx2, hy1, hy2, by omega⟩
    rw [congrFun hres t, binFold_apply _ _ _ _ hnd, if_neg hmem]

/-- The C1 example box [l=30, r=34, b=0, t=4]. -/
def c1box : Rect := mkRect 30 0 4 4

/-- Witness for C1: in a 100 x 100 frame (4 x 4 tiles), the box
[30, 34] x [0, 4] is appended to exactly tiles x = 0 and x = 1 at y = 0;
tile 2 is untouched. -/
theorem C1_tile_binning_witness :
    (writeCmdToTiles s100 CMD_RECT c1box).1.cmdsPerTile 0 =
      tileAppend (s100.cmdsPerTile 0) 0 ∧
    (writeCmdToTiles s100 CMD_RECT c1box).1.cmdsPerTile 1 =
      tileAppend (s100.cmdsPerTile 1) 0 ∧
    (writeCmdToTiles s100 CMD_RECT c1box).1.cmdsPerTile 2 = s100.cmdsPerTile 2 := by
  refine ⟨(C1_tile_binning s100 CMD_RECT c1box (by decide) 0).1 ⟨0, 0, by decide⟩,
    (C1_tile_binning s100 CMD_RECT c1box (by decide) 1).1 ⟨1, 0, by decide⟩,
    (C1_tile_binning s100 CMD_RECT c1box (by decide) 2).2 ?_⟩
  rintro ⟨x, y, hx1, hx2, hy1, hy2, he⟩
  have e1 : min (jsShr5 c1box.right) (s100.num_tiles_x - 1) = 1 := by decide
  have e2 : min (jsShr5 c1box.top) (s100.num_tiles_y - 1) = 0 := by decide
  have e3 : max (jsShr5 c1box.left) 0 = 0 := by decide
  have e4 : max (jsShr5 c1box.bottom) 0 = 0 := by decide
  have e5 : s100.num_tiles_x = 4 := by decide
  rw [e1] at hx2
  rw [e2] at hy2
  rw [e3] at hx1
  rw [e4] at hy1
  rw [e5] at he
  omega

theorem packInner_aux_snd (arr : ℕ → ℕ) : ∀ (m : ℕ) (tc : ℕ → ℕ) (idx : ℕ),
    ((List.range m).foldl (fun ac i =>
      (u16Write (TILE_CMDS_BUFFER_LINE * TILE_CMDS_BUFFER_LINE) ac.1 ac.2 (arr (i + 1)),
        ac.2 + 1)) (tc, idx)).2 = idx + m := by
  intro m
  induction m with
  | zero => intro tc idx; rfl
  | succ m ih =>
    intro tc idx
    rw [List.range_succ, List.foldl_append]
    simp only [List.foldl_cons, List.foldl_nil]
    rw [ih tc idx]
    omega

/-- The packed write index advances by exactly the tile's stored command
count during the inner packing loop. -/
theorem packInner_snd (arr : ℕ → ℕ) (tc : ℕ → ℕ) (idx : ℕ) :
    (packInner arr tc idx).2 = idx + arr 0 := by
  unfold packInner
  exact packInner_aux_snd arr (arr 0) tc idx

/-- One unrolling of the tile packing loop. -/
theorem packLoop_succ (cpt : ℕ → ℕ → ℕ) (n : ℕ) (tc rg : ℕ → ℕ) :
    packLoop cpt (n + 1) tc rg =
      ((packInner (cpt n) (packLoop cpt n tc rg).1 (packLoop cpt n tc rg).2.2).1,
       u16Write (MAX_TILES + 1) (packLoop cpt n tc rg).2.1 n (packLoop cpt n tc rg).2.2,
       (packInner (cpt n) (packLoop cpt n tc rg).1 (packLoop cpt n tc rg).2.2).2) := by
  unfold packLoop
  rw [List.range_succ, List.foldl_append]
  simp only [List.foldl_cons, List.foldl_nil]

/-- The total packed count after the loop is the sum of the per-tile
stored counts. -/
theorem packLoop_snd (cpt : ℕ → ℕ → ℕ) : ∀ (n : ℕ) (tc rg : ℕ → ℕ),
    (packLoop cpt n tc rg).2.2 = ∑ ti ∈ Finset.range n, cpt ti 0 := by
  intro n
  induction n with
  | zero =>
    intro tc rg
    simp [packLoop]
  | succ n ih =>
    intro tc rg
    rw [packLoop_succ]
    dsimp only
    rw [packInner_snd, ih, Finset.sum_range_succ]

/-- Each range-table entry written by the loop holds the prefix sum of the
per-tile counts (stored modulo 2^16). -/
theorem packLoop_ranges (cpt : ℕ → ℕ → ℕ) : ∀ (n : ℕ) (tc rg : ℕ → ℕ) (j : ℕ),
    j < n → j < MAX_TILES + 1 →
    (packLoop cpt n tc rg).2.1 j = (∑ ti ∈ Finset.range j, cpt ti 0) % 65536 := by
  intro n
  induction n with
  | zero =>
    intro tc rg j hj _
    exact absurd hj (Nat.not_lt_zero j)
  | succ n ih =>
    intro tc rg j hj hj2
    rw [packLoop_succ]
    dsimp only
    rcases Nat.lt_succ_iff_lt_or_eq.mp hj with hlt | rfl
    · rw [u16Write_apply, if_neg (by rintro ⟨h1, _⟩; omega)]
      exact ih tc rg j hlt hj2
    · rw [u16Write_apply, if_pos ⟨rfl, hj2⟩, packLoop_snd]

/-- C5: after the packing step inside draw() — tiles iterated in row-major
index order — the tile range table is monotone (range[i] less-or-equal
range[i+1] for every tile index i below num_tiles_n) and the final sentinel
range[num_tiles_n] equals the total number of command indices appended to
the packed tile-command array (the sum of the per-tile counts), provided
the frame respects the declared capacities (tile count at most MAX_TILES
and a total that fits the 16-bit range table). -/
theorem C5_pack_ranges (s : RState)
    (hn : s.num_tiles_n.toNat ≤ MAX_TILES)
    (htot : (∑ ti ∈ Finset.range s.num_tiles_n.toNat, s.cmdsPerTile ti 0) ≤ 65535) :
    (∀ i < s.num_tiles_n.toNat,
      (draw s).tileCmdRanges i ≤ (draw s).tileCmdRanges (i + 1)) ∧
    (draw s).tileCmdRanges s.num_tiles_n.toNat =
      ∑ ti ∈ Finset.range s.num_tiles_n.toNat, s.cmdsPerTile ti 0 := by
  have hmt : MAX_TILES = 4095 := rfl
  have hsub : ∀ j, j ≤ s.num_tiles_n.toNat →
      (∑ ti ∈ Finset.range j, s.cmdsPerTile ti 0) ≤ 65535 := by
    intro j hj
    exact le_trans (Finset.sum_le_sum_of_subset (Finset.range_subset.mpr hj)) htot
  have hrg : ∀ j, j ≤ s.num_tiles_n.toNat →
      (draw s).tileCmdRanges j = ∑ ti ∈ Finset.range j, s.cmdsPerTile ti 0 := by
    intro j hj
    show u16Write (MAX_TILES + 1)
      (packLoop s.cmdsPerTile s.num_tiles_n.toNat s.tileCmds s.tileCmdRanges).2.1
      s.num_tiles_n.toNat
      (packLoop s.cmdsPerTile s.num_tiles_n.toNat s.tileCmds s.tileCmdRanges).2.2 j = _
    rcases Nat.eq_or_lt_of_le hj with rfl | hlt
    · rw [u16Write_apply, if_pos ⟨rfl, by omega⟩, packLoop_snd,
        Nat.mod_eq_of_lt (by have := hsub _ le_rfl; omega)]
    · rw [u16Write_apply, if_neg (by rintro ⟨h1, _⟩; omega),
        packLoop_ranges s.cmdsPerTile s.num_tiles_n.toNat s.tileCmds s.tileCmdRanges j hlt
          (by omega),
        Nat.mod_eq_of_lt (by have := hsub j (le_of_lt hlt); omega)]
  constructor
  · intro i hi
    rw [hrg i (le_of_lt hi), hrg (i + 1) hi]
    exact Finset.sum_le_sum_of_subset (Finset.range_subset.mpr (by omega))
  · exact hrg s.num_tiles_n.toNat le_rfl

/-- Witness for C5 on the concrete frame of the C3 scenario (16 tiles, one
command binned into tile 0). -/
theorem C5_pack_ranges_witness :
    (draw c3frame1).tileCmdRanges 0 ≤ (draw c3frame1).tileCmdRanges 1 ∧
    (draw c3frame1).tileCmdRanges c3frame1.num_tiles_n.toNat =
      ∑ ti ∈ Finset.range c3frame1.num_tiles_n.toNat, c3frame1.cmdsPerTile ti 0 := by
  have h := C5_pack_ranges c3frame1 (by decide) (by decide)
  exact ⟨h.1 0 (by decide), h.2⟩

/-- The viewport-clip test of addPrimitiveShape as a predicate. -/
def clipCond (s : RState) (b : Rect) : Prop :=
  b.right < 0 ∨ b.left > s.viewportW ∨ b.top < 0 ∨ b.bottom > s.viewportH

instance (s : RState) (b : Rect) : Decidable (clipCond s b) := by
  unfold clipCond
  infer_instance

/-- One add-call of the public accumulation surface, with its arguments. -/
inductive AddCall where
  | rect (l t w h : ℚ) (c : Vec4) (cw : ℚ)
  | frame (l b w h lw : ℚ) (c : Vec4) (cw : ℚ)
  | line (p1 p2 : ℚ × ℚ) (wd : ℚ) (c : Vec4)
  | quad (p1 p2 p3 p4 : ℚ × ℚ) (c : Vec4)
  | image (l t w h : ℚ) (tex : Option ℕ) (cw al : ℚ)

/-- Apply one add-call to the renderer state. -/
def applyCall (s : RState) : AddCall → RState
  | .rect l t w h c cw => addRect s l t w h c cw
  | .frame l b w h lw c cw => addFrame s l b w h lw c cw
  | .line p1 p2 wd c => addLine s p1 p2 wd c
  | .quad p1 p2 p3 p4 c => addQuad s p1 p2 p3 p4 c
  | .image l t w h tex cw al => addImage s l t w h tex cw al

/-- Apply a sequence of add-calls (one frame's accumulation). -/
def applyCalls (s : RState) (cs : List AddCall) : RState :=
  cs.foldl applyCall s

/-- The state after only the clip test and (possible) style push of a call:
the call's effect before any command write. -/
def styleStage (s : RState) : AddCall → RState
  | .rect l t w h c cw =>
    if clipCond s (mkRect l t w h) then s else pushStyleIfNew s c (some 0) (some cw)
  | .frame l b w h lw c cw =>
    if clipCond s (mkRect l b w h) then s else pushStyleIfNew s c (some lw) (some cw)
  | .line p1 p2 wd c =>
    if clipCond s (((mkRect p1.1 p1.2 0 0).encapsulate p2).widen
      (jsRound (wd * (1 / 2) + 1 / 100))) then s
    else pushStyleIfNew s c (some wd) (some 0)
  | .quad p1 p2 p3 p4 c =>
    if clipCond s ((((mkRect p1.1 p1.2 0 0).encapsulate p2).encapsulate p3).encapsulate p4)
    then s else pushStyleIfNew s c (some 0) (some 0)
  | .image l t w h tex cw al =>
    let s1 : RState := { s with textureIDs := (pushTextureID s.loadingTextureIDs tex
      s.textureIDs).2 }
    if clipCond s1 (mkRect l t w h) then s1
    else pushStyleIfNew s1 ⟨1, 1, 1, al⟩ (some 0) (some cw)

/-- The two cursors stay inside their regions: the style cursor within the
reserved style tail and the command cursor at or below the style region
start. -/
def RInv (s : RState) : Prop :=
  styleDataStartIdx ≤ s.styleDataIdx ∧ s.styleDataIdx ≤ styleDataStartIdx + 2048 ∧
    s.cmdDataIdx ≤ styleDataStartIdx

theorem writeCmd_rejected (s : RState) (cmdType : ℚ) (bounds : Rect)
    (hcap : (s.cmdDataIdx : ℚ) / 4 + 4 > (MAX_SHAPE_CMDS : ℚ)) :
    writeCmdToTiles s cmdType bounds = (s, false) := by
  simp only [writeCmdToTiles]
  rw [if_pos hcap]

theorem addLine_rejected (s : RState) (p1 p2 : ℚ × ℚ) (wd : ℚ) (c : Vec4)
    (hacc : (addPrimitiveShape s CMD_LINE (((mkRect p1.1 p1.2 0 0).encapsulate p2).widen
      (jsRound (wd * (1 / 2) + 1 / 100))) c wd 0).2 = false) :
    addLine s p1 p2 wd c =
      (addPrimitiveShape s CMD_LINE (((mkRect p1.1 p1.2 0 0).encapsulate p2).widen
        (jsRound (wd * (1 / 2) + 1 / 100))) c wd 0).1 := by
  simp only [addLine]
  rw [hacc, if_neg Bool.false_ne_true]

theorem addQuad_rejected (s : RState) (p1 p2 p3 p4 : ℚ × ℚ) (c : Vec4)
    (hacc : (addPrimitiveShape s CMD_QUAD
      ((((mkRect p1.1 p1.2 0 0).encapsulate p2).encapsulate p3).encapsulate p4) c 0 0).2 =
      false) :
    addQuad s p1 p2 p3 p4 c =
      (addPrimitiveShape s CMD_QUAD
        ((((mkRect p1.1 p1.2 0 0).encapsulate p2).encapsulate p3).encapsulate p4) c 0 0).1 := by
  simp only [addQuad]
  rw [hacc, if_neg Bool.false_ne_true]

theorem addImageInternal_rejected (s : RState)
    (left top width height samplerIdx slice cornerWidth alpha : ℚ)
    (hacc : (addPrimitiveShape s CMD_IMAGE (mkRect left top width height)
      ⟨1, 1, 1, alpha⟩ 0 cornerWidth).2 = false) :
    addImageInternal s left top width height samplerIdx slice cornerWidth alpha =
      (addPrimitiveShape s CMD_IMAGE (mkRect left top width height)
        ⟨1, 1, 1, alpha⟩ 0 cornerWidth).1 := by
  simp only [addImageInternal]
  rw [hacc, if_neg Bool.false_ne_true]

theorem addQuad_accepted (s : RState) (p1 p2 p3 p4 : ℚ × ℚ) (c : Vec4)
    (hacc : (addPrimitiveShape s CMD_QUAD
      ((((mkRect p1.1 p1.2 0 0).encapsulate p2).encapsulate p3).encapsulate p4) c 0 0).2 =
      true) :
    addQuad s p1 p2 p3 p4 c =
      { (addPrimitiveShape s CMD_QUAD
          ((((mkRect p1.1 p1.2 0 0).encapsulate p2).encapsulate p3).encapsulate p4)
          c 0 0).1 with
        cmdData := f32Write (f32Write (f32Write (f32Write (f32Write (f32Write (f32Write
          (f32Write (addPrimitiveShape s CMD_QUAD ((((mkRect p1.1 p1.2 0
            0).encapsulate p2).encapsulate p3).encapsulate p4) c 0 0).1.cmdData
          ((addPrimitiveShape s CMD_QUAD ((((mkRect p1.1 p1.2 0 0).encapsulate
            p2).encapsulate p3).encapsulate p4) c 0 0).1.cmdDataIdx) p1.1)
          ((addPrimitiveShape s CMD_QUAD ((((mkRect p1.1 p1.2 0 0).encapsulate
            p2).encapsulate p3).encapsulate p4) c 0 0).1.cmdDataIdx + 1) p1.2)
          ((addPrimitiveShape s CMD_QUAD ((((mkRect p1.1 p1.2 0 0).encapsulate
            p2).encapsulate p3).encapsulate p4) c 0 0).1.cmdDataIdx + 2) p2.1)
          ((addPrimitiveShape s CMD_QUAD ((((mkRect p1.1 p1.2 0 0).encapsulate
            p2).encapsulate p3).encapsulate p4) c 0 0).1.cmdDataIdx + 3) p2.2)
          ((addPrimitiveShape s CMD_QUAD ((((mkRect p1.1 p1.2 0 0).encapsulate
            p2).encapsulate p3).encapsulate p4) c 0 0).1.cmdDataIdx + 4) p3.1)
          ((addPrimitiveShape s CMD_QUAD ((((mkRect p1.1 p1.2 0 0).encapsulate
            p2).encapsulate p3).encapsulate p4) c 0 0).1.cmdDataIdx + 5) p3.2)
          ((addPrimitiveShape s CMD_QUAD ((((mkRect p1.1 p1.2 0 0).encapsulate
            p2).encapsulate p3).encapsulate p4) c 0 0).1.cmdDataIdx + 6) p4.1)
          ((addPrimitiveShape s CMD_QUAD ((((mkRect p1.1 p1.2 0 0).encapsulate
            p2).encapsulate p3).encapsulate p4) c 0 0).1.cmdDataIdx + 7) p4.2,
        cmdDataIdx := (addPrimitiveShape s CMD_QUAD ((((mkRect p1.1 p1.2 0
          0).encapsulate p2).encapsulate p3).encapsulate p4) c 0 0).1.cmdDataIdx + 8 } := by
  simp only [addQuad]
  rw [hacc, if_pos rfl]

theorem addImageInternal_accepted (s : RState)
    (left top width height samplerIdx slice cornerWidth alpha : ℚ)
    (hacc : (addPrimitiveShape s CMD_IMAGE (mkRect left top width height)
      ⟨1, 1, 1, alpha⟩ 0 cornerWidth).2 = true) :
    addImageInternal s left top width height samplerIdx slice cornerWidth alpha =
      { (addPrimitiveShape s CMD_IMAGE (mkRect left top width height)
          ⟨1, 1, 1, alpha⟩ 0 cornerWidth).1 with
        cmdData := f32Write (f32Write
          (addPrimitiveShape s CMD_IMAGE (mkRect left top width height)
            ⟨1, 1, 1, alpha⟩ 0 cornerWidth).1.cmdData
          ((addPrimitiveShape s CMD_IMAGE (mkRect left top width height)
            ⟨1, 1, 1, alpha⟩ 0 cornerWidth).1.cmdDataIdx) samplerIdx)
          ((addPrimitiveShape s CMD_IMAGE (mkRect left top width height)
            ⟨1, 1, 1, alpha⟩ 0 cornerWidth).1.cmdDataIdx + 1) slice,
        cmdDataIdx := (addPrimitiveShape s CMD_IMAGE (mkRect left top width height)
          ⟨1, 1, 1, alpha⟩ 0 cornerWidth).1.cmdDataIdx + 4 } := by
  simp only [addImageInternal]
  rw [hacc, if_pos rfl]

theorem f32Write_high (d : ℕ → ℚ) (i : ℕ) (v : ℚ) (j : ℕ) (h : MAX_CMD_DATA * 4 ≤ j) :
    f32Write d i v j = d j := by
  rw [f32Write_apply, if_neg]
  rintro ⟨rfl, hlt⟩
  omega

theorem pushStyle_cmdData_high (s : RState) (color : Vec4) (lw corner : Option ℚ) (i : ℕ)
    (hi : MAX_CMD_DATA * 4 ≤ i) :
    (pushStyleIfNew s color lw corner).cmdData i = s.cmdData i := by
  by_cases h : styleNew s color lw corner = true
  · rw [pushStyle_pushed s color lw corner h]
    dsimp only
    rw [f32Write_high _ _ _ _ hi, f32Write_high _ _ _ _ hi, f32Write_high _ _ _ _ hi,
      f32Write_high _ _ _ _ hi, f32Write_high _ _ _ _ hi, f32Write_high _ _ _ _ hi]
  · rw [pushStyle_not_pushed s color lw corner (by simpa using h)]

theorem pushStyle_styleIdx_bounds (s : RState) (color : Vec4) (lw corner : Option ℚ)
    (h1 : styleDataStartIdx ≤ s.styleDataIdx) (h2 : s.styleDataIdx ≤ styleDataStartIdx + 2048) :
    styleDataStartIdx ≤ (pushStyleIfNew s color lw corner).styleDataIdx ∧
    (pushStyleIfNew s color lw corner).styleDataIdx ≤ styleDataStartIdx + 2048 := by
  by_cases h : styleNew s color lw corner = true
  · rw [pushStyle_pushed s color lw corner h]
    dsimp only
    have hge := styleWriteIdx_ge s h1
    have hle := styleWriteIdx_le s
    constructor <;> omega
  · rw [pushStyle_not_pushed s color lw corner (by simpa using h)]
    exact ⟨h1, h2⟩

/-- Region separation and invariant preservation for a single
addPrimitiveShape call. -/
theorem addPrim_sep (s : RState) (ty : ℚ) (b : Rect) (color : Vec4) (lw cr : ℚ)
    (hs : RInv s) :
    RInv (addPrimitiveShape s ty b color lw cr).1 ∧
    (∀ i, styleDataStartIdx ≤ i → (addPrimitiveShape s ty b color lw cr).1.cmdData i =
      (if clipCond s b then s else pushStyleIfNew s color (some lw) (some cr)).cmdData i) ∧
    (∀ i < styleDataStartIdx,
      (if clipCond s b then s else pushStyleIfNew s color (some lw) (some cr)).cmdData i =
        s.cmdData i) ∧
    (∀ i, MAX_CMD_DATA * 4 ≤ i →
      (addPrimitiveShape s ty b color lw cr).1.cmdData i = s.cmdData i) ∧
    ((addPrimitiveShape s ty b color lw cr).2 = true →
      (addPrimitiveShape s ty b color lw cr).1.cmdDataIdx + 8 ≤ styleDataStartIdx) := by
  obtain ⟨hinv1, hinv2, hinv3⟩ := hs
  have hstart : styleDataStartIdx = 1046528 := rfl
  by_cases hclip : clipCond s b
  · have he : addPrimitiveShape s ty b color lw cr = (s, false) := by
      unfold addPrimitiveShape
      rw [if_pos (show b.right < 0 ∨ b.left > s.viewportW ∨ b.top < 0 ∨
        b.bottom > s.viewportH from hclip)]
    rw [he, if_pos hclip]
    refine ⟨⟨hinv1, hinv2, hinv3⟩, fun i _ => rfl, fun i _ => rfl, fun i _ => rfl, ?_⟩
    intro hcl
    exact absurd hcl Bool.false_ne_true
  · have he : addPrimitiveShape s ty b color lw cr =
        writeCmdToTiles (pushStyleIfNew s color (some lw) (some cr)) ty b := by
      unfold addPrimitiveShape
      rw [if_neg (show ¬(b.right < 0 ∨ b.left > s.viewportW ∨ b.top < 0 ∨
        b.bottom > s.viewportH) from hclip)]
    have hsb := pushStyle_styleIdx_bounds s color (some lw) (some cr) hinv1 hinv2
    have hidx : (pushStyleIfNew s color (some lw) (some cr)).cmdDataIdx = s.cmdDataIdx := by
      rw [pushStyle_eq s color (some lw) (some cr)]
    rw [he, if_neg hclip]
    by_cases hcap : ((pushStyleIfNew s color (some lw) (some cr)).cmdDataIdx : ℚ) / 4 + 4 >
        (MAX_SHAPE_CMDS : ℚ)
    · have hw := writeCmd_rejected (pushStyleIfNew s color (some lw) (some cr)) ty b hcap
      rw [hw]
      refine ⟨⟨hsb.1, hsb.2, by rw [hidx]; exact hinv3⟩, fun i _ => rfl, ?_, ?_, ?_⟩
      · intro i hi
        exact pushStyle_cmdData_low s color (some lw) (some cr) hinv1 i hi
      · intro i hi
        exact pushStyle_cmdData_high s color (some lw) (some cr) i hi
      · intro hcl
        exact absurd hcl Bool.false_ne_true
    · have hwle : s.cmdDataIdx ≤ 1046512 := capacity_le s.cmdDataIdx (by rw [← hidx]; exact hcap)
      have hd := writeCmd_accepted_cmdData (pushStyleIfNew s color (some lw) (some cr)) ty b hcap
      have hi8 := writeCmd_accepted_idx (pushStyleIfNew s color (some lw) (some cr)) ty b hcap
      have hkeep := writeCmd_keeps (pushStyleIfNew s color (some lw) (some cr)) ty b
      refine ⟨⟨?_, ?_, ?_⟩, ?_, ?_, ?_, ?_⟩
      · rw [hkeep.2.2.2.2.1]
        exact hsb.1
      · rw [hkeep.2.2.2.2.1]
        exact hsb.2
      · rw [hi8, hidx]
        omega
      · intro i hi
        rw [hd, hidx]
        rw [f32Write_ne _ _ _ _ (by omega), f32Write_ne _ _ _ _ (by omega),
          f32Write_ne _ _ _ _ (by omega), f32Write_ne _ _ _ _ (by omega),
          f32Write_ne _ _ _ _ (by omega), f32Write_ne _ _ _ _ (by omega)]
      · intro i hi
        exact pushStyle_cmdData_low s color (some lw) (some cr) hinv1 i hi
      · intro i hi
        rw [hd, hidx]
        have hlen : MAX_CMD_DATA * 4 = 1048576 := rfl
        rw [f32Write_ne _ _ _ _ (by omega), f32Write_ne _ _ _ _ (by omega),
          f32Write_ne _ _ _ _ (by omega), f32Write_ne _ _ _ _ (by omega),
          f32Write_ne _ _ _ _ (by omega), f32Write_ne _ _ _ _ (by omega)]
        exact pushStyle_cmdData_high s color (some lw) (some cr) i hi
      · intro _
        rw [hi8, hidx]
        omega

instance (s : RState) : Decidable (RInv s) := by
  unfold RInv
  infer_instance

theorem styleStart_le_len : styleDataStartIdx ≤ MAX_CMD_DATA * 4 := by decide

/-- Region separation and invariant preservation for a single add-call. -/
theorem step_sep (s : RState) (hs : RInv s) (c : AddCall) :
    RInv (applyCall s c) ∧
    (∀ i, styleDataStartIdx ≤ i → (applyCall s c).cmdData i = (styleStage s c).cmdData i) ∧
    (∀ i < styleDataStartIdx, (styleStage s c).cmdData i = s.cmdData i) ∧
    (∀ i, MAX_CMD_DATA * 4 ≤ i → (applyCall s c).cmdData i = s.cmdData i) := by
  cases c with
  | rect l t w h c cw =>
    have h := addPrim_sep s CMD_RECT (mkRect l t w h) c 0 cw hs
    simp only [applyCall, styleStage, addRect]
    exact ⟨h.1, h.2.1, h.2.2.1, h.2.2.2.1⟩
  | frame l b w h lw c cw =>
    have h := addPrim_sep s CMD_FRAME (mkRect l b w h) c lw cw hs
    simp only [applyCall, styleStage, addFrame]
    exact ⟨h.1, h.2.1, h.2.2.1, h.2.2.2.1⟩
  | line p1 p2 wd c =>
    have h := addPrim_sep s CMD_LINE
      (((mkRect p1.1 p1.2 0 0).encapsulate p2).widen (jsRound (wd * (1 / 2) + 1 / 100)))
      c wd 0 hs
    simp only [applyCall, styleStage]
    by_cases hacc : (addPrimitiveShape s CMD_LINE
        (((mkRect p1.1 p1.2 0 0).encapsulate p2).widen (jsRound (wd * (1 / 2) + 1 / 100)))
        c wd 0).2 = true
    · have hcur := h.2.2.2.2 hacc
      have hal := addLine_accepted s p1 p2 wd c hacc
      rw [hal]
      obtain ⟨g1, g2, g3⟩ := h.1
      refine ⟨⟨g1, g2, by dsimp only; omega⟩, ?_, h.2.2.1, ?_⟩
      · intro i hi
        dsimp only
        rw [f32Write_ne _ _ _ _ (by omega), f32Write_ne _ _ _ _ (by omega),
          f32Write_ne _ _ _ _ (by omega), f32Write_ne _ _ _ _ (by omega)]
        exact h.2.1 i hi
      · intro i hi
        have hsl := styleStart_le_len
        dsimp only
        rw [f32Write_ne _ _ _ _ (by omega), f32Write_ne _ _ _ _ (by omega),
          f32Write_ne _ _ _ _ (by omega), f32Write_ne _ _ _ _ (by omega)]
        exact h.2.2.2.1 i hi
    · have hal := addLine_rejected s p1 p2 wd c (by simpa using hacc)
      rw [hal]
      exact ⟨h.1, h.2.1, h.2.2.1, h.2.2.2.1⟩
  | quad p1 p2 p3 p4 c =>
    have h := addPrim_sep s CMD_QUAD
      ((((mkRect p1.1 p1.2 0 0).encapsulate p2).encapsulate p3).encapsulate p4) c 0 0 hs
    simp only [applyCall, styleStage]
    by_cases hacc : (addPrimitiveShape s CMD_QUAD
        ((((mkRect p1.1 p1.2 0 0).encapsulate p2).encapsulate p3).encapsulate p4) c 0 0).2 =
        true
    · have hcur := h.2.2.2.2 hacc
      have hal := addQuad_accepted s p1 p2 p3 p4 c hacc
      rw [hal]
      obtain ⟨g1, g2, g3⟩ := h.1
      refine ⟨⟨g1, g2, by dsimp only; omega⟩, ?_, h.2.2.1, ?_⟩
      · intro i hi
        dsimp only
        rw [f32Write_ne _ _ _ _ (by omega), f32Write_ne _ _ _ _ (by omega),
          f32Write_ne _ _ _ _ (by omega), f32Write_ne _ _ _ _ (by omega),
          f32Write_ne _ _ _ _ (by omega), f32Write_ne _ _ _ _ (by omega),
          f32Write_ne _ _ _ _ (by omega), f32Write_ne _ _ _ _ (by omega)]
        exact h.2.1 i hi
      · intro i hi
        have hsl := styleStart_le_len
        dsimp only
        rw [f32Write_ne _ _ _ _ (by omega), f32Write_ne _ _ _ _ (by omega),
          f32Write_ne _ _ _ _ (by omega), f32Write_ne _ _ _ _ (by omega),
          f32Write_ne _ _ _ _ (by omega), f32Write_ne _ _ _ _ (by omega),
          f32Write_ne _ _ _ _ (by omega), f32Write_ne _ _ _ _ (by omega)]
        exact h.2.2.2.1 i hi
    · have hal := addQuad_rejected s p1 p2 p3 p4 c (by simpa using hacc)
      rw [hal]
      exact ⟨h.1, h.2.1, h.2.2.1, h.2.2.2.1⟩
  | image l t w ht tex cw al =>
    have hs1 : RInv { s with textureIDs := (pushTextureID s.loadingTextureIDs tex
        s.textureIDs).2 } := hs
    have h := addPrim_sep { s with textureIDs := (pushTextureID s.loadingTextureIDs tex
        s.textureIDs).2 } CMD_IMAGE (mkRect l t w ht) ⟨1, 1, 1, al⟩ 0 cw hs1
    simp only [applyCall, styleStage, addImage]
    by_cases hacc : (addPrimitiveShape { s with textureIDs := (pushTextureID
        s.loadingTextureIDs tex s.textureIDs).2 } CMD_IMAGE (mkRect l t w ht)
        ⟨1, 1, 1, al⟩ 0 cw).2 = true
    · have hcur := h.2.2.2.2 hacc
      have hal := addImageInternal_accepted { s with textureIDs := (pushTextureID
        s.loadingTextureIDs tex s.textureIDs).2 } l t w ht
        (((if (pushTextureID s.loadingTextureIDs tex s.textureIDs).1 < 0 then
          (pushTextureID s.loadingTextureIDs tex s.textureIDs).1
        else if ((pushTextureID s.loadingTextureIDs tex s.textureIDs).2.length : ℤ) ≥
            (samplersLength : ℤ) then -2
        else 5 + (pushTextureID s.loadingTextureIDs tex s.textureIDs).1 : ℤ) : ℚ))
        0 cw al hacc
      rw [hal]
      obtain ⟨g1, g2, g3⟩ := h.1
      refine ⟨⟨g1, g2, by dsimp only; omega⟩, ?_, h.2.2.1, ?_⟩
      · intro i hi
        dsimp only
        rw [f32Write_ne _ _ _ _ (by omega), f32Write_ne _ _ _ _ (by omega)]
        exact h.2.1 i hi
      · intro i hi
        have hsl := styleStart_le_len
        dsimp only
        rw [f32Write_ne _ _ _ _ (by omega), f32Write_ne _ _ _ _ (by omega)]
        exact h.2.2.2.1 i hi
    · have hal := addImageInternal_rejected { s with textureIDs := (pushTextureID
        s.loadingTextureIDs tex s.textureIDs).2 } l t w ht
        (((if (pushTextureID s.loadingTextureIDs tex s.textureIDs).1 < 0 then
          (pushTextureID s.loadingTextureIDs tex s.textureIDs).1
        else if ((pushTextureID s.loadingTextureIDs tex s.textureIDs).2.length : ℤ) ≥
            (samplersLength : ℤ) then -2
        else 5 + (pushTextureID s.loadingTextureIDs tex s.textureIDs).1 : ℤ) : ℚ))
        0 cw al (by simpa using hacc)
      rw [hal]
      exact ⟨h.1, h.2.1, h.2.2.1, h.2.2.2.1⟩

/-- C9: region safety of the shared cmdData array.  For any sequence of
add-calls from a state whose cursors respect their regions, the cursor
invariant is preserved and no write ever lands outside the array; and for
each single call, everything the command-write phase adds lies strictly
below styleDataStartIdx (above it the state agrees with the style stage
alone), while the style push touches nothing below styleDataStartIdx —
the two regions never overlap and neither cursor crosses into the other
region. -/
theorem C9_region_safety (s : RState) (hs : RInv s) :
    (∀ cs : List AddCall, RInv (applyCalls s cs) ∧
      (∀ i, MAX_CMD_DATA * 4 ≤ i → (applyCalls s cs).cmdData i = s.cmdData i)) ∧
    (∀ c : AddCall,
      (∀ i, styleDataStartIdx ≤ i →
        (applyCall s c).cmdData i = (styleStage s c).cmdData i) ∧
      (∀ i < styleDataStartIdx, (styleStage s c).cmdData i = s.cmdData i) ∧
      (applyCall s c).cmdDataIdx ≤ styleDataStartIdx ∧
      styleDataStartIdx ≤ (applyCall s c).styleDataIdx ∧
      (applyCall s c).styleDataIdx ≤ styleDataStartIdx + 2048) := by
  have seq : ∀ (cs : List AddCall) (s : RState), RInv s →
      RInv (applyCalls s cs) ∧
      (∀ i, MAX_CMD_DATA * 4 ≤ i → (applyCalls s cs).cmdData i = s.cmdData i) := by
    intro cs
    induction cs with
    | nil =>
      intro s hs
      exact ⟨hs, fun i _ => rfl⟩
    | cons c cs ih =>
      intro s hs
      have h1 := step_sep s hs c
      have h2 := ih (applyCall s c) h1.1
      refine ⟨h2.1, ?_⟩
      intro i hi
      rw [show applyCalls s (c :: cs) = applyCalls (applyCall s c) cs from rfl,
        h2.2 i hi, h1.2.2.2 i hi]
  refine ⟨fun cs => seq cs s hs, fun c => ?_⟩
  have h1 := step_sep s hs c
  exact ⟨h1.2.1, h1.2.2.1, h1.1.2.2, h1.1.1, h1.1.2.1⟩

/-- Witness for C9 at a concrete state and call sequence. -/
theorem C9_region_safety_witness :
    RInv (applyCalls s100 [AddCall.rect 0 0 10 10 colA 0]) ∧
    (applyCall s100 (AddCall.rect 0 0 10 10 colA 0)).cmdDataIdx ≤ styleDataStartIdx := by
  have h := C9_region_safety s100 (by decide)
  exact ⟨(h.1 [AddCall.rect 0 0 10 10 colA 0]).1,
    (h.2 (AddCall.rect 0 0 10 10 colA 0)).2.2.1⟩

theorem styleNew_of_colorNe (s : RState) (c : Vec4) (lw cr : Option ℚ)
    (h : s.stateColor ≠ c) : styleNew s c lw cr = true := by
  unfold styleNew
  rw [if_neg h]
  simp

theorem styleWriteIdx_of_start (s : RState) (h : s.styleDataIdx = styleDataStartIdx) :
    styleWriteIdx s = styleDataStartIdx := by
  unfold styleWriteIdx
  rw [h]
  rw [if_neg (by norm_num [MAX_STYLE_CMDS, MAX_CMD_BUFFER_LINE])]

theorem addFrame_in_view (s : RState) (l b w h lw : ℚ) (c : Vec4) (cw : ℚ)
    (hclip : ¬((mkRect l b w h).right < 0 ∨ (mkRect l b w h).left > s.viewportW ∨
      (mkRect l b w h).top < 0 ∨ (mkRect l b w h).bottom > s.viewportH)) :
    addFrame s l b w h lw c cw =
      (writeCmdToTiles (pushStyleIfNew s c (some lw) (some cw)) CMD_FRAME
        (mkRect l b w h)).1 := by
  unfold addFrame addPrimitiveShape
  rw [if_neg hclip]

theorem addFrame_clipped (s : RState) (l b w h lw : ℚ) (c : Vec4) (cw : ℚ)
    (hclip : (mkRect l b w h).right < 0 ∨ (mkRect l b w h).left > s.viewportW ∨
      (mkRect l b w h).top < 0 ∨ (mkRect l b w h).bottom > s.viewportH) :
    addFrame s l b w h lw c cw = s := by
  unfold addFrame addPrimitiveShape
  rw [if_pos hclip]

/-- The first 8 floats written by an in-view addFrame issued at a fresh
command cursor with an empty style list and the sentinel active color:
(type, style offset 0, untouched, untouched, left, bottom, right, top). -/
theorem frame_record (s : RState) (h0 : s.cmdDataIdx = 0)
    (hst : s.styleDataIdx = styleDataStartIdx)
    (hcol : s.stateColor = ⟨-1, -1, -1, -1⟩)
    (l b w h lw cw : ℚ) (c : Vec4) (hc : c ≠ ⟨-1, -1, -1, -1⟩)
    (hclip : ¬clipCond s (mkRect l b w h)) :
    (addFrame s l b w h lw c cw).cmdData 0 = CMD_FRAME ∧
    (addFrame s l b w h lw c cw).cmdData 1 = 0 ∧
    (addFrame s l b w h lw c cw).cmdData 2 = s.cmdData 2 ∧
    (addFrame s l b w h lw c cw).cmdData 3 = s.cmdData 3 ∧
    (addFrame s l b w h lw c cw).cmdData 4 = l ∧
    (addFrame s l b w h lw c cw).cmdData 5 = b ∧
    (addFrame s l b w h lw c cw).cmdData 6 = l + w ∧
    (addFrame s l b w h lw c cw).cmdData 7 = b + h := by
  have hsn : styleNew s c (some lw) (some cw) = true :=
    styleNew_of_colorNe s c (some lw) (some cw) (by rw [hcol]; exact fun e => hc e.symm)
  have hpush := pushStyle_pushed s c (some lw) (some cw) hsn
  rw [styleWriteIdx_of_start s hst] at hpush
  have hpi : (pushStyleIfNew s c (some lw) (some cw)).cmdDataIdx = 0 := by
    rw [pushStyle_eq s c (some lw) (some cw)]
    exact h0
  have hps : (pushStyleIfNew s c (some lw) (some cw)).styleDataIdx =
      styleDataStartIdx + 8 := by
    rw [hpush]
  have hcap : ¬(((pushStyleIfNew s c (some lw) (some cw)).cmdDataIdx : ℚ) / 4 + 4 >
      (MAX_SHAPE_CMDS : ℚ)) := by
    rw [hpi]
    norm_num [MAX_SHAPE_CMDS, MAX_CMD_DATA, MAX_STYLE_CMDS, MAX_CMD_BUFFER_LINE]
  have heq := addFrame_in_view s l b w h lw c cw hclip
  have hd := writeCmd_accepted_cmdData (pushStyleIfNew s c (some lw) (some cw)) CMD_FRAME
    (mkRect l b w h) hcap
  rw [hpi, hps] at hd
  have hv : (((styleDataStartIdx + 8 : ℕ) : ℚ) - (styleDataStartIdx : ℚ) -
      (styleStep : ℚ)) / 4 = 0 := by
    norm_num [styleDataStartIdx, styleStep, MAX_CMD_DATA, MAX_STYLE_CMDS, MAX_CMD_BUFFER_LINE]
  rw [hv] at hd
  have hlow : ∀ j < styleDataStartIdx,
      (pushStyleIfNew s c (some lw) (some cw)).cmdData j = s.cmdData j := by
    intro j hj
    exact pushStyle_cmdData_low s c (some lw) (some cw) (le_of_eq hst.symm) j hj
  have hstart : styleDataStartIdx = 1046528 := rfl
  rw [heq, hd]
  refine ⟨?_, ?_, ?_, ?_, ?_, ?_, ?_, ?_⟩
  · rw [f32Write_ne _ _ _ _ (by omega), f32Write_ne _ _ _ _ (by omega),
      f32Write_ne _ _ _ _ (by omega), f32Write_ne _ _ _ _ (by omega),
      f32Write_ne _ _ _ _ (by omega), f32Write_hit _ _ _ (lt_cmdDataLen _ (by omega))]
  · rw [f32Write_ne _ _ _ _ (by omega), f32Write_ne _ _ _ _ (by omega),
      f32Write_ne _ _ _ _ (by omega), f32Write_ne _ _ _ _ (by omega),
      f32Write_hit _ _ _ (lt_cmdDataLen _ (by omega))]
  · rw [f32Write_ne _ _ _ _ (by omega), f32Write_ne _ _ _ _ (by omega),
      f32Write_ne _ _ _ _ (by omega), f32Write_ne _ _ _ _ (by omega),
      f32Write_ne _ _ _ _ (by omega), f32Write_ne _ _ _ _ (by omega)]
    exact hlow 2 (by omega)
  · rw [f32Write_ne _ _ _ _ (by omega), f32Write_ne _ _ _ _ (by omega),
      f32Write_ne _ _ _ _ (by omega), f32Write_ne _ _ _ _ (by omega),
      f32Write_ne _ _ _ _ (by omega), f32Write_ne _ _ _ _ (by omega)]
    exact hlow 3 (by omega)
  · rw [f32Write_ne _ _ _ _ (by omega), f32Write_ne _ _ _ _ (by omega),
      f32Write_ne _ _ _ _ (by omega), f32Write_hit _ _ _ (lt_cmdDataLen _ (by omega))]
    rfl
  · rw [f32Write_ne _ _ _ _ (by omega), f32Write_ne _ _ _ _ (by omega),
      f32Write_hit _ _ _ (lt_cmdDataLen _ (by omega))]
    rfl
  · rw [f32Write_ne _ _ _ _ (by omega),
      f32Write_hit _ _ _ (lt_cmdDataLen _ (by omega))]
    rfl
  · rw [f32Write_hit _ _ _ (lt_cmdDataLen _ (by omega))]
    rfl

/-- C3 amended: draw() resets the command write cursor, the style write
cursor, the texture-request lists and the color of the active-style cache
(to the sentinel), but not the line-width and corner components of the
cache; consequently an identical addFrame call issued in two consecutive
frames produces a byte-identical 8-float command record, provided the
call's color differs component-wise from the sentinel (-1,-1,-1,-1). -/
theorem C3_amended :
    (∀ s : RState, (draw s).cmdDataIdx = 0 ∧ (draw s).styleDataIdx = styleDataStartIdx ∧
      (draw s).stateColor = ⟨-1, -1, -1, -1⟩ ∧ (draw s).textureIDs = [] ∧
      (draw s).textureBundleIDs = []) ∧
    (∀ (W H : ℕ) (l b w h lw cw : ℚ) (c : Vec4), c ≠ ⟨-1, -1, -1, -1⟩ →
      ∀ i < 8,
        (addFrame (beginFrame (draw (addFrame (beginFrame initState W H) l b w h lw c cw))
          W H) l b w h lw c cw).cmdData i =
        (addFrame (beginFrame initState W H) l b w h lw c cw).cmdData i) := by
  constructor
  · intro s
    exact ⟨rfl, rfl, rfl, rfl, rfl⟩
  · intro W H l b w h lw cw c hc i hi
    by_cases hclip : clipCond (beginFrame initState W H) (mkRect l b w h)
    · have e1 : addFrame (beginFrame initState W H) l b w h lw c cw =
          beginFrame initState W H :=
        addFrame_clipped (beginFrame initState W H) l b w h lw c cw hclip
      rw [e1]
      have e2 : addFrame (beginFrame (draw (beginFrame initState W H)) W H) l b w h lw c cw =
          beginFrame (draw (beginFrame initState W H)) W H :=
        addFrame_clipped (beginFrame (draw (beginFrame initState W H)) W H) l b w h lw c cw
          hclip
      rw [e2]
      rfl
    · have h1 := frame_record (beginFrame initState W H) rfl rfl rfl l b w h lw cw c hc hclip
      have h2 := frame_record
        (beginFrame (draw (addFrame (beginFrame initState W H) l b w h lw c cw)) W H)
        rfl rfl rfl l b w h lw cw c hc hclip
      interval_cases i
      · rw [h2.1, h1.1]
      · rw [h2.2.1, h1.2.1]
      · rw [h2.2.2.1]
        rfl
      · rw [h2.2.2.2.1]
        rfl
      · rw [h2.2.2.2.2.1, h1.2.2.2.2.1]
      · rw [h2.2.2.2.2.2.1, h1.2.2.2.2.2.1]
      · rw [h2.2.2.2.2.2.2.1, h1.2.2.2.2.2.2.1]
      · rw [h2.2.2.2.2.2.2.2, h1.2.2.2.2.2.2.2]

/-- Witness for C3 amended: the concrete two-frame scenario with a
non-sentinel color produces byte-identical record headers. -/
theorem C3_amended_witness :
    (addFrame (beginFrame (draw (addFrame (beginFrame initState 100 100) 10 10 20 20 5 colA
      0)) 100 100) 10 10 20 20 5 colA 0).cmdData 1 =
    (addFrame (beginFrame initState 100 100) 10 10 20 20 5 colA 0).cmdData 1 :=
  C3_amended.2 100 100 10 10 20 20 5 0 colA (by decide) 1 (by decide)

/-- Witness for C10 at a concrete input: a full command buffer, an in-view
rectangle and a fresh color — the call fails but the style state changes. -/
theorem C10_nonatomic_style_push_witness :
    (addPrimitiveShape fullState CMD_RECT (mkRect 10 10 20 20) ⟨0, 0, 1, 1⟩ 0 0).2 = false ∧
    (addPrimitiveShape fullState CMD_RECT (mkRect 10 10 20 20) ⟨0, 0, 1, 1⟩ 0 0).1.stateColor =
      ⟨0, 0, 1, 1⟩ ∧
    (addPrimitiveShape fullState CMD_RECT (mkRect 10 10 20 20)
      ⟨0, 0, 1, 1⟩ 0 0).1.stateChanges = fullState.stateChanges + 1 := by
  have h := C10_nonatomic_style_push fullState CMD_RECT (mkRect 10 10 20 20) ⟨0, 0, 1, 1⟩ 0 0
    (by decide) (by decide) (by decide)
  exact ⟨h.1, h.2.2.1, h.2.2.2.2.2.1⟩

/-- Witness for C4 amended at concrete inputs: addRect advances the cursor
by 8, addLine by 12, addQuad by 16. -/
theorem C4_amended_witness :
    (addRect s100 0 0 10 10 colA 0).cmdDataIdx = s100.cmdDataIdx + 8 ∧
    (addRect s100 0 0 10 10 colA 0).cmdData s100.cmdDataIdx = CMD_RECT ∧
    (addLine s100 (1, 1) (20, 20) 2 colA).cmdDataIdx = s100.cmdDataIdx + 12 ∧
    (addQuad s100 (1, 1) (20, 1) (20, 20) (1, 20) colA).cmdDataIdx =
      s100.cmdDataIdx + 16 := by
  have h1 := C4_amended.1 s100 0 0 10 10 colA 0 (by decide)
  have h2 := C4_amended.2.1 s100 (1, 1) (20, 20) 2 colA (by decide)
  have h3 := C4_amended.2.2 s100 (1, 1) (20, 1) (20, 20) (1, 20) colA (by decide)
  exact ⟨h1.1, h1.2.1, h2.1, h3⟩
